import Mathlib

/-!
# lgpng: a PNG writer using stored DEFLATE blocks

A shallow embedding of `lgpng.c` / `lgpng.h`.

Conventions of the embedding.

* A byte is a natural number; buffers and the output stream are `List Nat`.
  A C pointer into a buffer is the list of bytes from that address on, so
  `buffer + carat` is `buffer.drop carat`.
* `FILE` is the list of bytes written so far; every write appends.
* The two globals `crc_table` and `crc_table_computed` are threaded
  explicitly as a `globals` record.
* An `int` is an integer (`Int`); `unsigned long` and `size_t` are 64 bits
  wide (LP64).  The conversions between them are explicit: `int_to_ulong`
  (an `int` passed as `unsigned long` or `size_t`), `to_int` (a `size_t` value
  stored in an `int`, two's complement), `u32_to_int`.  The row size
  `bytes_per_row` is such a stored value, so it wraps for a width of 2^29 or
  more.
* Signed `int` arithmetic, whose overflow is undefined in C, is exact integer
  arithmetic.  The chunk size it computes is only serialised, and
  `int_to_four_chars` keeps its low 32 bits, as the C code does.
* Truncation is explicit where the code serialises a number
  (`int_to_four_chars`), where it stores a CRC in a `uint32_t`, where the
  Adler-32 sums are `uint32_t`, and where `adler32_sum` returns a signed `int`.
* `malloc` fails for a request of 2^63 bytes or more (a negative `int` size)
  and succeeds otherwise.
* A call that can fail an assertion has an `outcome`: it returned, or it
  aborted, with the stream as it was at that point.
-/

namespace Lgpng

/-! ## Image (lgpng.h) -/

/-- The struct `pixel`: four `unsigned char` channels. -/
structure pixel where
  r : Fin 256
  g : Fin 256
  b : Fin 256
  a : Fin 256
deriving DecidableEq

/-- The struct `image`: `width` and `height` are `int`s; `data k` is the pixel
at `((struct pixel*)img->data) + k`. -/
structure image where
  width : Int
  height : Int
  data : Int → pixel

/-- Size in bytes of a `struct pixel` (four `unsigned char` members). -/
def sizeof_pixel : Nat := 4

/-- Index, in pixels from the base of `img->data`, of the pixel that
`pixel_at(img, row, col)` points to. -/
def pixel_index (img : image) (row col : Int) : Int := row * img.width + col

/-- The pixel `*pixel_at(img, row, col)`. -/
def pixel_at (img : image) (row col : Int) : pixel := img.data (pixel_index img row col)

/-- Address of `pixel_at(img, row, col)` as a byte offset from `img->data`. -/
def pixel_addr (img : image) (row col : Int) : Int := pixel_index img row col * sizeof_pixel

/-- Value of an expression of type `unsigned long` or `size_t`, an integer
taken modulo 2^64. -/
def ulong_of (x : Int) : Nat := (x % 2 ^ 64).toNat

/-- The function `image_sanity_test`: the difference of two addresses is taken
in `unsigned long`. -/
def image_sanity_test (img : image) : Bool :=
  if img.width ≥ 2 then
    decide (ulong_of (pixel_addr img 0 1 - pixel_addr img 0 0) = 4)
  else if img.width = 1 ∧ img.height ≥ 2 then
    decide (ulong_of (pixel_addr img 1 0 - pixel_addr img 0 0) = 4)
  else true

/-- Byte number `k` of a pixel in memory: members `r`, `g`, `b`, `a` in
declaration order. -/
def pixel.byte (p : pixel) (k : Nat) : Nat :=
  match k with
  | 0 => p.r.val
  | 1 => p.g.val
  | 2 => p.b.val
  | _ => p.a.val

/-- The `n` bytes of memory starting at the address of pixel number `start`
of the buffer: what `memcpy(dst, pixel_at(img, row, 0), n)` copies. -/
def read_pixel_bytes (img : image) (start : Int) (n : Nat) : List Nat :=
  (List.range n).map (fun k =>
    (img.data (start + (k / sizeof_pixel : Nat))).byte (k % sizeof_pixel))

/-! ## Output stream -/

/-- The output stream: the bytes written so far. -/
abbrev FILE := List Nat

/-- The call `fwrite(ptr, 1, count, file)`: appends `count` bytes and returns
the number of items written. -/
def fwrite (file : FILE) (ptr : List Nat) (count : Nat) : FILE × Nat :=
  (file ++ ptr.take count, count)

/-- The characters of a C string: the bytes before the first NUL. -/
def cstr (s : List Nat) : List Nat := s.takeWhile (fun c => c ≠ 0)

/-- The call `fprintf(file, "%s", s)`. -/
def fprintf_s (file : FILE) (s : List Nat) : FILE := file ++ cstr s

/-- The call `fprintf(file, "%2s", s)`: minimum field width 2, padded on the
left with spaces. -/
def fprintf_2s (file : FILE) (s : List Nat) : FILE :=
  file ++ (List.replicate (2 - (cstr s).length) 32 ++ cstr s)

/-- The call `strncpy(dst, src, n)`: the `n` bytes stored into `dst`.  The end
of the list `src` is its terminating NUL. -/
def strncpy : List Nat → Nat → List Nat
  | _, 0 => []
  | [], n + 1 => List.replicate (n + 1) 0
  | c :: cs, n + 1 => if c = 0 then List.replicate (n + 1) 0 else c :: strncpy cs n

/-! ## CRC -/

/-- The globals `crc_table` and `crc_table_computed`. -/
structure globals where
  crc_table : List Nat
  crc_table_computed : Bool
deriving DecidableEq

/-- State of the globals at program start: zero-initialised table, flag 0. -/
def globals_init : globals := ⟨List.replicate 256 0, false⟩

/-- One pass of the inner loop body of `make_crc_table`. -/
def crc_step (c : Nat) : Nat :=
  if c &&& 1 ≠ 0 then 0xedb88320 ^^^ (c >>> 1) else c >>> 1

/-- The value `make_crc_table` stores into `crc_table[n]`: eight passes of the
inner loop starting from `n`. -/
def crc_table_entry (n : Nat) : Nat :=
  (List.range 8).foldl (fun c _ => crc_step c) n

/-- The function `make_crc_table`. -/
def make_crc_table (_g : globals) : globals :=
  ⟨(List.range 256).map crc_table_entry, true⟩

/-- The function `update_crc`: returns the globals it leaves and the CRC. -/
def update_crc (g : globals) (crc : Nat) (buf : List Nat) (len : Nat) : globals × Nat :=
  let g1 := if !g.crc_table_computed then make_crc_table g else g
  (g1, (buf.take len).foldl
        (fun c b => g1.crc_table.getD ((c ^^^ b) &&& 0xff) 0 ^^^ (c >>> 8)) crc)

/-- The function `crc`. -/
def crc (g : globals) (buf : List Nat) (len : Nat) : globals × Nat :=
  let r := update_crc g 0xffffffff buf len
  (r.1, r.2 ^^^ 0xffffffff)

/-! ## Adler-32 -/

/-- The constant `MOD_ADLER`. -/
def MOD_ADLER : Nat := 65521

/-- Value of an expression of type `uint32_t`. -/
def u32 (x : Nat) : Nat := x % 2 ^ 32

/-- The function `adler32`. -/
def adler32 (data : List Nat) (len : Nat) : Nat :=
  let ab := (data.take len).foldl
    (fun (s : Nat × Nat) d =>
      let a := u32 (s.1 + d) % MOD_ADLER
      let b := u32 (s.2 + a) % MOD_ADLER
      (a, b)) (1, 0)
  u32 (ab.2 <<< 16) ||| ab.1

/-- The struct `adler32_data`. -/
structure adler32_data where
  a : Nat
  b : Nat
deriving DecidableEq

/-- The function `adler32_init`. -/
def adler32_init : adler32_data := ⟨1, 0⟩

/-- The function `adler32_update`. -/
def adler32_update (ad : adler32_data) (data : List Nat) (len : Nat) : adler32_data :=
  (data.take len).foldl
    (fun (s : adler32_data) d =>
      let a := u32 (s.a + d) % MOD_ADLER
      let b := u32 (s.b + a) % MOD_ADLER
      ⟨a, b⟩) ad

/-- Conversion of a `uint32_t` value to `int`. -/
def u32_to_int (x : Nat) : Int :=
  if x % 2 ^ 32 < 2 ^ 31 then (x % 2 ^ 32 : Nat) else ((x % 2 ^ 32 : Nat) : Int) - 2 ^ 32

/-- The function `adler32_sum`: the packed value, returned as an `int`. -/
def adler32_sum (ad : adler32_data) : Int :=
  u32_to_int (u32 (ad.b <<< 16) ||| ad.a)

/-- Conversion of an `int` argument to `unsigned long` or `size_t`. -/
def int_to_ulong (x : Int) : Nat := (x % 2 ^ 64).toNat

/-- Conversion of a `size_t` value to `int`: its low 32 bits, two's complement. -/
def to_int (x : Nat) : Int :=
  if x % 2 ^ 32 < 2 ^ 31 then (x % 2 ^ 32 : Nat) else ((x % 2 ^ 32 : Nat) : Int) - 2 ^ 32

/-! ## PNG -/

/-- The constant `PNG_HEADER` (with its terminating NUL). -/
def PNG_HEADER : List Nat := [137, 80, 78, 71, 13, 10, 26, 10, 0]
/-- The constant `TRUE_COLOR_WITH_ALPHA`. -/
def TRUE_COLOR_WITH_ALPHA : Nat := 6
/-- The constant `BYTE_LENGTH`. -/
def BYTE_LENGTH : Nat := 8
/-- The constant `COL_BIT_DEPTH`. -/
def COL_BIT_DEPTH : Nat := 8
/-- The constant `bKGD`. -/
def bKGD : List Nat := [0, 255, 0, 255, 0, 255]
/-- The constant `bKGD_LEN`. -/
def bKGD_LEN : Nat := 6
/-- The constant `PNG_CHUNK_TYPE_LENGTH`. -/
def PNG_CHUNK_TYPE_LENGTH : Nat := 4
/-- The constant `MAX_DATA_BYTES_PER_DEFLATE_BLOCK`. -/
def MAX_DATA_BYTES_PER_DEFLATE_BLOCK : Nat := 65535
/-- The constant `ZLIB_DEFLATE_HEADER` (with its terminating NUL). -/
def ZLIB_DEFLATE_HEADER : List Nat := [8, 29, 0]
/-- The constant `DEFLATE_OVERHEAD`. -/
def DEFLATE_OVERHEAD : Nat := 5

/-- The string literal "IHDR". -/
def str_IHDR : List Nat := [73, 72, 68, 82]
/-- The string literal "sRGB". -/
def str_sRGB : List Nat := [115, 82, 71, 66]
/-- The string literal "bKGD". -/
def str_bKGD : List Nat := [98, 75, 71, 68]
/-- The string literal "IDAT". -/
def str_IDAT : List Nat := [73, 68, 65, 84]
/-- The string literal "IEND". -/
def str_IEND : List Nat := [73, 69, 78, 68]

/-- The struct `png_chunk`: the four bytes of `type`, `len`, and the bytes
`data` points to. -/
structure png_chunk where
  type : List Nat
  len : Nat
  data : List Nat
deriving DecidableEq

/-- The function `int_to_four_chars`: the four bytes stored into `p_i->i`. -/
def int_to_four_chars (i : Nat) : List Nat :=
  (List.range 4).map (fun j => (i >>> (BYTE_LENGTH * (3 - j))) % 256)

/-- The function `int_to_four_chars_rev`. -/
def int_to_four_chars_rev (i : Nat) : List Nat :=
  (List.range 4).map (fun j => (i >>> (BYTE_LENGTH * j)) % 256)

/-- The function `int_to_four_chars_zlibchunk`. -/
def int_to_four_chars_zlibchunk (i : Nat) : List Nat :=
  (List.range 2).map (fun j => (i >>> (BYTE_LENGTH * j)) % 256) ++
  (List.range 2).map (fun j => 255 - (i >>> (BYTE_LENGTH * j)) % 256)

/-- The function `create_chunk`. -/
def create_chunk (type : List Nat) (len : Nat) (data : List Nat) : png_chunk :=
  { type := strncpy type PNG_CHUNK_TYPE_LENGTH, len := len, data := data.take len }

/-- The function `write_chunk`: returns the globals and the stream it leaves. -/
def write_chunk (g : globals) (file : FILE) (chunk : png_chunk) : globals × FILE :=
  let i := int_to_four_chars chunk.len
  let f1 := (fwrite file i 4).1
  let f2 := (fwrite f1 chunk.type PNG_CHUNK_TYPE_LENGTH).1
  let f3 := (fwrite f2 chunk.data chunk.len).1
  let chunk_crc := 0xffffffff
  let r1 := update_crc g chunk_crc chunk.type PNG_CHUNK_TYPE_LENGTH
  let r2 := update_crc r1.1 r1.2 chunk.data chunk.len
  let chunk_crc := r2.2 ^^^ 0xffffffff
  let i := int_to_four_chars chunk_crc
  (r2.1, (fwrite f3 i 4).1)

/-- The function `write_and_free_chunk`. -/
def write_and_free_chunk (g : globals) (file : FILE) (chunk : png_chunk) : globals × FILE :=
  write_chunk g file chunk

/-- The function `create_IHDR_DATA`. -/
def create_IHDR_DATA (width height : Int)
    (depth col_type compression filter interlace : Nat) : png_chunk :=
  let w := int_to_four_chars (int_to_ulong width)
  let h := int_to_four_chars (int_to_ulong height)
  let len := 13
  let data := w ++ h ++ [depth % 256, col_type % 256, compression % 256, filter % 256,
    interlace % 256]
  create_chunk str_IHDR len data

/-- Whether `malloc(size)` succeeds: a request of 2^63 bytes or more fails. -/
def malloc_ok (size : Nat) : Bool := decide (size < 2 ^ 63)

/-- How a call that can fail an assertion ends: it returned, leaving the
globals and the stream, or an assertion failed and the process aborted, with
the stream as it was then. -/
inductive outcome where
  | returned (g : globals) (file : FILE)
  | aborted (file : FILE)
deriving DecidableEq

/-- The local variables of `write_zlib_chunk` that its loops change, together
with the globals and the stream. -/
structure zlib_state where
  g : globals
  file : FILE
  chunk_crc : Nat
  ad : adler32_data
  carat : Nat

/-- Body of the inner loop of `write_zlib_chunk` (one stored block): row `i`,
block `j`, with `buffer` holding the current row. -/
def zlib_block_step (height bytes_per_row num_DEFLATE_blocks_per_row : Nat)
    (buffer : List Nat) (i : Nat) (st : zlib_state) (j : Nat) : zlib_state :=
  let curblock_len :=
    if j = num_DEFLATE_blocks_per_row - 1 then bytes_per_row % MAX_DATA_BYTES_PER_DEFLATE_BLOCK
    else MAX_DATA_BYTES_PER_DEFLATE_BLOCK
  let lastQ := if i = height - 1 ∧ j = num_DEFLATE_blocks_per_row - 1 then 1 else 0
  let r1 := update_crc st.g st.chunk_crc [lastQ] 1
  let f1 := (fwrite st.file [lastQ] 1).1
  let ival := int_to_four_chars_zlibchunk curblock_len
  let r2 := update_crc r1.1 (u32 r1.2) ival 4
  let f2 := (fwrite f1 ival 4).1
  let r3 := update_crc r2.1 (u32 r2.2) (buffer.drop st.carat) curblock_len
  let w := fwrite f2 (buffer.drop st.carat) curblock_len
  { g := r3.1, file := w.1, chunk_crc := u32 r3.2, ad := st.ad, carat := st.carat + w.2 }

/-- Body of the outer loop of `write_zlib_chunk` (one row).  The loops run only
past the allocation of the buffer, where the row size and the block count are
positive, and for a positive height; they are driven by these values as
natural numbers. -/
def zlib_row_step (img : image) (bytes_per_row num_DEFLATE_blocks_per_row : Nat)
    (st : zlib_state) (i : Nat) : zlib_state :=
  let buffer := 0 :: read_pixel_bytes img (pixel_index img i 0) (bytes_per_row - 1)
  let ad := adler32_update st.ad buffer bytes_per_row
  (List.range num_DEFLATE_blocks_per_row).foldl
    (zlib_block_step img.height.toNat bytes_per_row num_DEFLATE_blocks_per_row buffer i)
    { st with ad := ad, carat := 0 }

/-- The function `write_zlib_chunk`.  It aborts when the assertion on
`image_sanity_test` or the assertion on the allocated buffer fails, both before
its first write; otherwise the C function returns 0. -/
def write_zlib_chunk (g : globals) (file : FILE) (img : image) : outcome :=
  if !image_sanity_test img then outcome.aborted file else
  let bytes_per_row : Int := to_int (ulong_of (int_to_ulong img.width * sizeof_pixel + 1))
  let num_DEFLATE_blocks_per_row : Int :=
    Int.tdiv (bytes_per_row - 1) MAX_DATA_BYTES_PER_DEFLATE_BLOCK + 1
  let num_DEFLATE_bytes_per_row : Int :=
    bytes_per_row + DEFLATE_OVERHEAD * num_DEFLATE_blocks_per_row
  let num_DEFLATE_bytes : Int := img.height * num_DEFLATE_bytes_per_row
  let num_chunk_bytes : Int := 2 + num_DEFLATE_bytes + 4
  let chunk_crc := 0xffffffff
  let ad := adler32_init
  if !malloc_ok (int_to_ulong bytes_per_row) then outcome.aborted file else
  let ival := int_to_four_chars (int_to_ulong num_chunk_bytes)
  let f1 := (fwrite file ival 4).1
  let f2 := fprintf_s f1 str_IDAT
  let r1 := update_crc g chunk_crc str_IDAT PNG_CHUNK_TYPE_LENGTH
  let f3 := fprintf_2s f2 ZLIB_DEFLATE_HEADER
  let r2 := update_crc r1.1 (u32 r1.2) ZLIB_DEFLATE_HEADER 2
  let st := (List.range img.height.toNat).foldl
    (zlib_row_step img bytes_per_row.toNat num_DEFLATE_blocks_per_row.toNat)
    { g := r2.1, file := f3, chunk_crc := u32 r2.2, ad := ad, carat := 0 }
  let ival := int_to_four_chars (int_to_ulong (adler32_sum st.ad))
  let f4 := (fwrite st.file ival 4).1
  let r3 := update_crc st.g st.chunk_crc ival 4
  let ival := int_to_four_chars (u32 r3.2 ^^^ 0xffffffff)
  outcome.returned r3.1 (fwrite f4 ival 4).1

/-- The function `write_PNG_image_to_file`.  It aborts when `write_zlib_chunk`
does, with what was written until then; otherwise the C function returns 0. -/
def write_PNG_image_to_file (g : globals) (file : FILE) (img : image) : outcome :=
  let f0 := fprintf_s file PNG_HEADER
  let chunk := create_IHDR_DATA img.width img.height COL_BIT_DEPTH TRUE_COLOR_WITH_ALPHA 0 0 0
  let r1 := write_and_free_chunk g f0 chunk
  let chunk := create_chunk str_sRGB 1 [0]
  let r2 := write_and_free_chunk r1.1 r1.2 chunk
  let chunk := create_chunk str_bKGD bKGD_LEN bKGD
  let r3 := write_and_free_chunk r2.1 r2.2 chunk
  match write_zlib_chunk r3.1 r3.2 img with
  | outcome.aborted f => outcome.aborted f
  | outcome.returned g4 f4 =>
    let chunk := create_chunk str_IEND 0 []
    let r5 := write_and_free_chunk g4 f4 chunk
    outcome.returned r5.1 r5.2

/-! ## Closed forms and reference definitions -/

/-- State of the globals once `make_crc_table` has run. -/
def globals_ready : globals := make_crc_table globals_init

/-- Invariant of the globals: once the flag is set, the table holds the entries
`make_crc_table` computes.  It holds at program start and after every call. -/
def globals.valid (g : globals) : Prop :=
  g.crc_table_computed = true → g.crc_table = (List.range 256).map crc_table_entry

/-- The loop of `update_crc` with each table lookup written as the entry
`make_crc_table` stores there. -/
def crc_fold (c : Nat) (buf : List Nat) : Nat :=
  buf.foldl (fun c b => crc_table_entry ((c ^^^ b) &&& 0xff) ^^^ (c >>> 8)) c

/-- The expression assigned to `curblock_len` in the inner loop of
`write_zlib_chunk`. -/
def curblock_len (bytes_per_row nb j : Nat) : Nat :=
  if j = nb - 1 then bytes_per_row % MAX_DATA_BYTES_PER_DEFLATE_BLOCK
  else MAX_DATA_BYTES_PER_DEFLATE_BLOCK

/-- The bytes one pass of the inner loop of `write_zlib_chunk` writes: flag,
length header, data. -/
def row_block (height bytes_per_row nb : Nat) (buffer : List Nat) (i j : Nat) : List Nat :=
  [if i = height - 1 ∧ j = nb - 1 then 1 else 0] ++
    int_to_four_chars_zlibchunk (curblock_len bytes_per_row nb j) ++
    (buffer.drop (j * MAX_DATA_BYTES_PER_DEFLATE_BLOCK)).take (curblock_len bytes_per_row nb j)

/-- The bytes the first `n` passes of the inner loop write for row `i`. -/
def row_bytes (height bytes_per_row nb : Nat) (buffer : List Nat) (i n : Nat) : List Nat :=
  (List.range n).flatMap (row_block height bytes_per_row nb buffer i)

/-- The value of `carat` after `n` passes of the inner loop. -/
def carat_after (bytes_per_row nb n : Nat) : Nat :=
  if n < nb then n * MAX_DATA_BYTES_PER_DEFLATE_BLOCK
  else (nb - 1) * MAX_DATA_BYTES_PER_DEFLATE_BLOCK + bytes_per_row % MAX_DATA_BYTES_PER_DEFLATE_BLOCK

/-- The contents of `buffer` for row `i`: the filter byte and the copied pixels. -/
def row_buffer (img : image) (i : Nat) : List Nat :=
  0 :: read_pixel_bytes img (pixel_index img i 0) (img.width.toNat * sizeof_pixel)

/-- The value of `num_DEFLATE_blocks_per_row` when the row size
`4 * width + 1` fits in an `int`. -/
def blocks_per_row (img : image) : Nat :=
  (img.width.toNat * sizeof_pixel + 1 - 1) / MAX_DATA_BYTES_PER_DEFLATE_BLOCK + 1

/-- The bytes `write_zlib_chunk` writes for row `i`. -/
def image_row_bytes (img : image) (i : Nat) : List Nat :=
  row_bytes img.height.toNat (img.width.toNat * sizeof_pixel + 1) (blocks_per_row img)
    (row_buffer img i) i (blocks_per_row img)

/-- The bytes `write_zlib_chunk` writes for the first `n` rows. -/
def rows_bytes (img : image) (n : Nat) : List Nat :=
  (List.range n).flatMap (image_row_bytes img)

/-- The row buffers of the first `n` rows, concatenated: the bytes fed to
`adler32_update`. -/
def rows_data (img : image) (n : Nat) : List Nat :=
  (List.range n).flatMap (row_buffer img)

/-- The value of `num_chunk_bytes` when the row size fits in an `int`. -/
def num_chunk_bytes (img : image) : Int :=
  2 + img.height *
    ((img.width.toNat * sizeof_pixel + 1 + DEFLATE_OVERHEAD * blocks_per_row img : Nat) : Int) + 4

/-- The four bytes `write_zlib_chunk` writes after the last row. -/
def adler_trailer (img : image) : List Nat :=
  int_to_four_chars (int_to_ulong (adler32_sum
    (adler32_update adler32_init (rows_data img img.height.toNat)
      (rows_data img img.height.toNat).length)))

/-- The bytes `write_zlib_chunk` writes between the type tag and the CRC. -/
def idat_payload (img : image) : List Nat :=
  [8, 29] ++ rows_bytes img img.height.toNat ++ adler_trailer img

/-- Big-endian encoding in four bytes, most significant byte first. -/
def big_endian_4 (n : Nat) : List Nat :=
  [n / 2 ^ 24 % 256, n / 2 ^ 16 % 256, n / 2 ^ 8 % 256, n % 256]

/-- The number a byte sequence denotes when read big-endian. -/
def be_value (bs : List Nat) : Nat := bs.foldl (fun acc b => acc * 256 + b) 0

/-- Reader of a sequence of stored DEFLATE blocks: a flag byte (0, or 1 on the
final block), LEN in two bytes little-endian, its complement in two bytes,
then LEN data bytes.  It reads up to and including the block whose flag is 1
and returns the blocks (flag, data) and the bytes left over. -/
def read_stored_blocks : Nat → List Nat → Option (List (Nat × List Nat) × List Nat)
  | 0, _ => none
  | fuel + 1, flag :: l0 :: l1 :: c0 :: c1 :: rest =>
    if (flag = 0 ∨ flag = 1) ∧ l0 + c0 = 255 ∧ l1 + c1 = 255 ∧ l0 + 256 * l1 ≤ rest.length then
      if flag = 1 then some ([(flag, rest.take (l0 + 256 * l1))], rest.drop (l0 + 256 * l1))
      else (read_stored_blocks fuel (rest.drop (l0 + 256 * l1))).map
        (fun r => ((flag, rest.take (l0 + 256 * l1)) :: r.1, r.2))
    else none
  | _ + 1, _ => none

/-- The wire form of a stored block with the given flag and data. -/
def encode_block (b : Nat × List Nat) : List Nat :=
  [b.1] ++ int_to_four_chars_zlibchunk b.2.length ++ b.2

/-- The stored blocks of a zlib stream: the blocks read after the 2-byte header. -/
def zlib_stored_blocks (payload : List Nat) : Option (List (Nat × List Nat) × List Nat) :=
  read_stored_blocks payload.length (payload.drop 2)

/-- The data a zlib stream of stored blocks decodes to: the data bytes of its
blocks, concatenated. -/
def zlib_stored_data (payload : List Nat) : Option (List Nat) :=
  (zlib_stored_blocks payload).map (fun r => r.1.flatMap Prod.snd)

/-- The data bytes of block `j` of a row. -/
def block_data (bytes_per_row nb : Nat) (buffer : List Nat) (j : Nat) : List Nat :=
  (buffer.drop (j * MAX_DATA_BYTES_PER_DEFLATE_BLOCK)).take (curblock_len bytes_per_row nb j)

/-- The stored blocks (flag, data) written for row `i`. -/
def image_row_blocks (img : image) (i : Nat) : List (Nat × List Nat) :=
  (List.range (blocks_per_row img)).map (fun j =>
    (if i = img.height.toNat - 1 ∧ j = blocks_per_row img - 1 then 1 else 0,
     block_data (img.width.toNat * sizeof_pixel + 1) (blocks_per_row img) (row_buffer img i) j))

/-- The stored blocks (flag, data) written for the whole image, in order. -/
def image_blocks (img : image) : List (Nat × List Nat) :=
  (List.range img.height.toNat).flatMap (image_row_blocks img)

/-- The bytes r, g, b, a of a pixel. -/
def pixel_bytes (p : pixel) : List Nat := [p.r.val, p.g.val, p.b.val, p.a.val]

/-- The filtered scanline of row `i`: the byte 0, then r, g, b, a of each pixel of
the row in column order. -/
def scanline (img : image) (i : Nat) : List Nat :=
  0 :: (List.range img.width.toNat).flatMap (fun c => pixel_bytes (pixel_at img i c))

/-- The filtered image data: the scanlines from top to bottom. -/
def filtered_data (img : image) : List Nat :=
  (List.range img.height.toNat).flatMap (scanline img)

/-- The CRC-32 of a byte sequence as `crc` computes it in one pass. -/
def crc32 (buf : List Nat) : Nat := (crc globals_init buf buf.length).2

/-- A framed PNG chunk: length, type, payload, CRC-32 of type and payload, the
integers big-endian. -/
def framed_chunk (t p : List Nat) : List Nat :=
  big_endian_4 p.length ++ t ++ p ++ big_endian_4 (crc32 (t ++ p))

/-- The bytes of a written chunk between its type tag and its last four bytes. -/
def chunk_payload (out : List Nat) : List Nat := (out.drop 8).take (out.length - 12)

/-- Ceiling of `a / b`. -/
def ceil_div (a b : Nat) : Nat := (a + b - 1) / b

/-- The bytes `write_zlib_chunk` appends to the stream when the row size fits
in an `int`. -/
def zlib_chunk_bytes (img : image) : List Nat :=
  big_endian_4 (int_to_ulong (num_chunk_bytes img)) ++ str_IDAT ++ idat_payload img ++
    big_endian_4 (crc32 (str_IDAT ++ idat_payload img))

/-- An `int` read as an unsigned 32-bit value. -/
def int_to_u32 (x : Int) : Nat := (x % 2 ^ 32).toNat

/-- The state after `adler32_init` and one call of `adler32_update` for each of
the given pieces, in order. -/
def adler32_feed (pieces : List (List Nat)) : adler32_data :=
  pieces.foldl (fun ad p => adler32_update ad p p.length) adler32_init

/-- One bit-serial CRC step, in the words of the claim: if `c` is odd,
0xEDB88320 xor `c >> 1`, else `c >> 1`. -/
def bit_step (c : Nat) : Nat :=
  if c % 2 = 1 then 0xEDB88320 ^^^ (c / 2) else c / 2

/-- The bit-serial CRC update: for each byte in order, xor the byte into the low
8 bits of the state, then apply `bit_step` 8 times to the whole state. -/
def crc_bitwise (c : Nat) (buf : List Nat) : Nat :=
  buf.foldl (fun c b =>
    bit_step (bit_step (bit_step (bit_step (bit_step (bit_step (bit_step (bit_step
      (c ^^^ b))))))))) c

/-- The bytes `write_PNG_image_to_file` appends to the stream before it calls
`write_zlib_chunk`: the signature and the chunks `IHDR`, `sRGB`, `bKGD`. -/
def png_head (img : image) : List Nat :=
  [137, 80, 78, 71, 13, 10, 26, 10] ++
    framed_chunk str_IHDR
      (big_endian_4 (int_to_ulong img.width) ++ big_endian_4 (int_to_ulong img.height) ++
        [8, 6, 0, 0, 0]) ++
    framed_chunk str_sRGB [0] ++
    framed_chunk str_bKGD [0, 255, 0, 255, 0, 255]

/-- The bytes `write_PNG_image_to_file` appends to the stream when the row size
fits in an `int`. -/
def png_bytes (img : image) : List Nat :=
  png_head img ++ zlib_chunk_bytes img ++ framed_chunk str_IEND []

/-! ## Lemmas -/

/-! ### The CRC table and `update_crc` -/

theorem table_getD (f : Nat → Nat) (n k : Nat) (hk : k < n) :
    ((List.range n).map f).getD k 0 = f k := by
  simp [List.getD_eq_getElem?_getD, List.getElem?_map, List.getElem?_range hk]

theorem and_255_lt (x : Nat) : x &&& 0xff < 256 := by
  have := @Nat.and_le_right x 255
  omega

theorem globals_init_valid : globals_init.valid := by
  intro h; cases h

theorem globals_ready_valid : globals_ready.valid := by
  intro _; rfl

theorem update_crc_of_valid (g : globals) (hg : g.valid) (c : Nat) (buf : List Nat) (len : Nat) :
    update_crc g c buf len = (globals_ready, crc_fold c (buf.take len)) := by
  have h1 : (if !g.crc_table_computed then make_crc_table g else g) = globals_ready := by
    cases hc : g.crc_table_computed with
    | false => rfl
    | true =>
      have h2 := hg hc
      cases g
      simp only at hc h2
      subst hc h2
      rfl
  unfold update_crc
  simp only [h1]
  congr 1
  unfold crc_fold
  congr 1
  funext c b
  simp only [globals_ready, make_crc_table]
  rw [table_getD _ _ _ (and_255_lt _)]

theorem crc_fold_append (c : Nat) (xs ys : List Nat) :
    crc_fold c (xs ++ ys) = crc_fold (crc_fold c xs) ys := by
  simp [crc_fold, List.foldl_append]

theorem crc_step_lt (c : Nat) (hc : c < 2 ^ 32) : crc_step c < 2 ^ 32 := by
  unfold crc_step
  have h1 : c >>> 1 < 2 ^ 32 := by
    rw [Nat.shiftRight_eq_div_pow]; omega
  split
  · exact Nat.xor_lt_two_pow (by norm_num) h1
  · exact h1

theorem crc_table_entry_lt (n : Nat) (hn : n < 2 ^ 32) : crc_table_entry n < 2 ^ 32 := by
  unfold crc_table_entry
  simp only [List.range_succ, List.range_zero, List.nil_append, List.foldl_append, List.foldl_cons, List.foldl_nil, List.cons_append]
  repeat apply crc_step_lt
  exact hn

theorem crc_fold_lt (c : Nat) (buf : List Nat) (hc : c < 2 ^ 32) : crc_fold c buf < 2 ^ 32 := by
  induction buf generalizing c with
  | nil => simpa [crc_fold] using hc
  | cons b bs ih =>
    have : crc_fold c (b :: bs) = crc_fold (crc_table_entry ((c ^^^ b) &&& 0xff) ^^^ (c >>> 8)) bs := by
      simp [crc_fold]
    rw [this]
    apply ih
    apply Nat.xor_lt_two_pow
    · apply crc_table_entry_lt
      have := and_255_lt (c ^^^ b)
      omega
    · rw [Nat.shiftRight_eq_div_pow]; omega

/-! ### The loops of `write_zlib_chunk` -/

theorem update_crc_ready (c : Nat) (buf : List Nat) (len : Nat) :
    update_crc globals_ready c buf len = (globals_ready, crc_fold c (buf.take len)) :=
  update_crc_of_valid _ globals_ready_valid _ _ _

theorem u32_of_lt (x : Nat) (h : x < 2 ^ 32) : u32 x = x := Nat.mod_eq_of_lt h

theorem u32_crc_fold (c : Nat) (buf : List Nat) (hc : c < 2 ^ 32) :
    u32 (crc_fold c buf) = crc_fold c buf := u32_of_lt _ (crc_fold_lt c buf hc)

theorem int_to_four_chars_zlibchunk_length (i : Nat) :
    (int_to_four_chars_zlibchunk i).length = 4 := by
  simp [int_to_four_chars_zlibchunk]

theorem int_to_four_chars_length (i : Nat) : (int_to_four_chars i).length = 4 := by
  simp [int_to_four_chars]

theorem zlib_block_step_eq (height bytes_per_row nb : Nat) (buffer : List Nat) (i : Nat)
    (st : zlib_state) (j : Nat) (hg : st.g = globals_ready) (hc : st.chunk_crc < 2 ^ 32)
    (hcar : st.carat = j * MAX_DATA_BYTES_PER_DEFLATE_BLOCK) :
    zlib_block_step height bytes_per_row nb buffer i st j =
      { g := globals_ready,
        file := st.file ++ row_block height bytes_per_row nb buffer i j,
        chunk_crc := crc_fold st.chunk_crc (row_block height bytes_per_row nb buffer i j),
        ad := st.ad,
        carat := st.carat + curblock_len bytes_per_row nb j } := by
  unfold zlib_block_step
  simp only [hg, update_crc_ready, fwrite]
  have e0 : ∀ x : Nat, List.take 1 [x] = [x] := fun x => rfl
  have e4 : ∀ x : Nat, List.take 4 (int_to_four_chars_zlibchunk x) = int_to_four_chars_zlibchunk x :=
    fun x => List.take_of_length_le (by rw [int_to_four_chars_zlibchunk_length])
  simp only [e0, e4]
  rw [u32_crc_fold _ _ hc, u32_crc_fold _ _ (crc_fold_lt _ _ hc),
    u32_crc_fold _ _ (crc_fold_lt _ _ (crc_fold_lt _ _ hc))]
  simp only [← crc_fold_append, row_block, curblock_len, hcar, List.append_assoc]

theorem block_loop (height bytes_per_row nb : Nat) (buffer : List Nat) (i : Nat)
    (st : zlib_state) (hg : st.g = globals_ready) (hc : st.chunk_crc < 2 ^ 32)
    (hcar : st.carat = 0) (hnb : 0 < nb) (n : Nat) (hn : n ≤ nb) :
    (List.range n).foldl (zlib_block_step height bytes_per_row nb buffer i) st =
      { g := globals_ready,
        file := st.file ++ row_bytes height bytes_per_row nb buffer i n,
        chunk_crc := crc_fold st.chunk_crc (row_bytes height bytes_per_row nb buffer i n),
        ad := st.ad,
        carat := carat_after bytes_per_row nb n } := by
  induction n with
  | zero =>
    cases st
    simp only at hg hcar
    subst hg hcar
    simp [row_bytes, crc_fold, carat_after, hnb]
  | succ n ih =>
    rw [List.range_succ, List.foldl_append, ih (by omega)]
    simp only [List.foldl_cons, List.foldl_nil]
    rw [zlib_block_step_eq _ _ _ _ _ _ _ rfl (crc_fold_lt _ _ hc)
      (by simp only [carat_after]; rw [if_pos (by omega)])]
    simp only [row_bytes, List.range_succ, List.flatMap_append, List.flatMap_cons,
      List.flatMap_nil, List.append_nil, List.append_assoc, crc_fold_append]
    congr 1
    simp only [carat_after, curblock_len]
    have h1 : n < nb := by omega
    rw [if_pos h1]
    by_cases h2 : n + 1 < nb
    · rw [if_pos h2, if_neg (by omega)]; ring
    · rw [if_neg h2, if_pos (by omega)]
      have : nb - 1 = n := by omega
      rw [this]

theorem read_pixel_bytes_length (img : image) (s : Int) (n : Nat) :
    (read_pixel_bytes img s n).length = n := by
  simp [read_pixel_bytes]

theorem row_buffer_length (img : image) (i : Nat) :
    (row_buffer img i).length = img.width.toNat * sizeof_pixel + 1 := by
  simp [row_buffer, read_pixel_bytes_length]

theorem adler32_update_append (ad : adler32_data) (xs ys : List Nat) :
    adler32_update (adler32_update ad xs xs.length) ys ys.length =
      adler32_update ad (xs ++ ys) (xs ++ ys).length := by
  simp only [adler32_update, List.take_length, List.foldl_append]

theorem zlib_row_step_eq (img : image) (st : zlib_state) (i : Nat)
    (hg : st.g = globals_ready) (hc : st.chunk_crc < 2 ^ 32) :
    zlib_row_step img (img.width.toNat * sizeof_pixel + 1) (blocks_per_row img) st i =
      { g := globals_ready,
        file := st.file ++ image_row_bytes img i,
        chunk_crc := crc_fold st.chunk_crc (image_row_bytes img i),
        ad := adler32_update st.ad (row_buffer img i) (row_buffer img i).length,
        carat := carat_after (img.width.toNat * sizeof_pixel + 1) (blocks_per_row img)
          (blocks_per_row img) } := by
  unfold zlib_row_step
  simp only []
  rw [block_loop img.height.toNat (img.width.toNat * sizeof_pixel + 1) (blocks_per_row img) _ i
    { g := st.g, file := st.file, chunk_crc := st.chunk_crc,
      ad := adler32_update st.ad
        (0 :: read_pixel_bytes img (pixel_index img i 0) (img.width.toNat * sizeof_pixel + 1 - 1))
        (img.width.toNat * sizeof_pixel + 1),
      carat := 0 } hg hc rfl (by simp [blocks_per_row]) _ (le_refl _)]
  simp only [image_row_bytes, row_buffer, Nat.add_sub_cancel, List.length_cons,
    read_pixel_bytes_length]

theorem row_loop (img : image) (st : zlib_state)
    (hg : st.g = globals_ready) (hc : st.chunk_crc < 2 ^ 32) (n : Nat) :
    let st1 := (List.range n).foldl
      (zlib_row_step img (img.width.toNat * sizeof_pixel + 1) (blocks_per_row img)) st
    st1.g = globals_ready ∧
    st1.file = st.file ++ rows_bytes img n ∧
    st1.chunk_crc = crc_fold st.chunk_crc (rows_bytes img n) ∧
    st1.ad = adler32_update st.ad (rows_data img n) (rows_data img n).length := by
  induction n with
  | zero => simp [rows_bytes, rows_data, crc_fold, adler32_update, hg]
  | succ n ih =>
    simp only [List.range_succ, List.foldl_append, List.foldl_cons, List.foldl_nil]
    obtain ⟨h1, h2, h3, h4⟩ := ih
    rw [zlib_row_step_eq _ _ _ h1 (by rw [h3]; exact crc_fold_lt _ _ hc)]
    simp only [h2, h3, h4, rows_bytes, rows_data, List.range_succ, List.flatMap_append,
      List.flatMap_cons, List.flatMap_nil, List.append_nil, List.append_assoc, crc_fold_append,
      adler32_update_append, true_and]

/-! ### Closed form of `write_zlib_chunk` -/

theorem image_sanity_test_true (img : image) : image_sanity_test img = true := by
  unfold image_sanity_test pixel_addr pixel_index sizeof_pixel ulong_of
  split
  · simp
  · split
    · rename_i h; simp [h.1]
    · rfl

theorem crc_eq (g : globals) (hg : g.valid) (buf : List Nat) :
    crc g buf buf.length = (globals_ready, crc_fold 0xffffffff buf ^^^ 0xffffffff) := by
  simp only [crc, update_crc_of_valid g hg, List.take_length]

theorem int_to_ulong_natCast (n : Nat) (h : n < 2 ^ 64) : int_to_ulong (n : Int) = n := by
  unfold int_to_ulong
  omega

theorem int_to_ulong_of_nonneg (x : Int) (h0 : 0 ≤ x) (h1 : x < 2 ^ 64) :
    int_to_ulong x = x.toNat := by
  unfold int_to_ulong
  omega

/-- The value the code stores in `bytes_per_row`, as a function of the width. -/
theorem bytes_per_row_eq_wrap (w : Int) :
    to_int (ulong_of (int_to_ulong w * sizeof_pixel + 1)) =
      (4 * w + 1 + 2 ^ 31) % 2 ^ 32 - 2 ^ 31 := by
  unfold to_int ulong_of int_to_ulong sizeof_pixel
  split <;> omega

theorem bytes_per_row_in_range (w : Int) (hw : 0 ≤ w) (hr : 4 * w + 1 < 2 ^ 31) :
    to_int (ulong_of (int_to_ulong w * sizeof_pixel + 1)) =
      ((w.toNat * sizeof_pixel + 1 : Nat) : Int) := by
  rw [bytes_per_row_eq_wrap]
  unfold sizeof_pixel
  omega

theorem block_count_in_range (m : Nat) :
    Int.tdiv (((m + 1 : Nat) : Int) - 1) MAX_DATA_BYTES_PER_DEFLATE_BLOCK + 1 =
      ((m / MAX_DATA_BYTES_PER_DEFLATE_BLOCK + 1 : Nat) : Int) := by
  unfold MAX_DATA_BYTES_PER_DEFLATE_BLOCK
  rw [Int.tdiv_eq_ediv (by omega) (by omega)]
  omega

theorem malloc_ok_in_range (n : Nat) (h : n < 2 ^ 31) :
    malloc_ok (int_to_ulong (n : Int)) = true := by
  rw [int_to_ulong_natCast n (by omega)]
  unfold malloc_ok
  exact decide_eq_true (by omega)

/-- The allocation fails when the stored row size is negative. -/
theorem malloc_fails_of_neg (x : Int) (h0 : x < 0) (h1 : -2 ^ 63 ≤ x) :
    malloc_ok (int_to_ulong x) = false := by
  unfold malloc_ok int_to_ulong
  exact decide_eq_false (by omega)

theorem write_zlib_chunk_eq (g : globals) (hg : g.valid) (file : FILE) (img : image)
    (hw : 0 ≤ img.width) (hr : 4 * img.width + 1 < 2 ^ 31) :
    write_zlib_chunk g file img = outcome.returned globals_ready
      (file ++ int_to_four_chars (int_to_ulong (num_chunk_bytes img)) ++ str_IDAT ++
        idat_payload img ++
        int_to_four_chars (crc_fold 0xffffffff (str_IDAT ++ idat_payload img) ^^^ 0xffffffff)) := by
  unfold write_zlib_chunk
  simp only [image_sanity_test_true, Bool.not_true, Bool.false_eq_true, if_false]
  rw [bytes_per_row_in_range img.width hw hr]
  have hn : img.width.toNat * sizeof_pixel + 1 < 2 ^ 31 := by
    unfold sizeof_pixel
    omega
  simp only [malloc_ok_in_range _ hn, Bool.not_true, Bool.false_eq_true, if_false,
    block_count_in_range, Int.toNat_ofNat]
  simp only [update_crc_of_valid g hg, update_crc_ready]
  have hI : List.take PNG_CHUNK_TYPE_LENGTH str_IDAT = str_IDAT := rfl
  have hZ : List.take 2 ZLIB_DEFLATE_HEADER = [8, 29] := rfl
  have hfI : ∀ f : FILE, fprintf_s f str_IDAT = f ++ str_IDAT := fun f => by
    simp [fprintf_s, cstr, str_IDAT]
  have hfZ : ∀ f : FILE, fprintf_2s f ZLIB_DEFLATE_HEADER = f ++ [8, 29] := fun f => by
    simp [fprintf_2s, cstr, ZLIB_DEFLATE_HEADER]
  have h4 : ∀ x : Nat, List.take 4 (int_to_four_chars x) = int_to_four_chars x :=
    fun x => List.take_of_length_le (by rw [int_to_four_chars_length])
  simp only [hI, hZ, hfI, hfZ, h4, fwrite]
  have c0 : (0xffffffff : Nat) < 2 ^ 32 := by norm_num
  have c1 := crc_fold_lt _ str_IDAT c0
  rw [u32_of_lt _ c1]
  have c2 := crc_fold_lt _ [8, 29] c1
  rw [u32_of_lt _ c2]
  have e := fun f0 : FILE => row_loop img
    { g := globals_ready, file := f0,
      chunk_crc := crc_fold (crc_fold 0xffffffff str_IDAT) [8, 29], ad := adler32_init,
      carat := 0 } rfl c2 img.height.toNat
  simp only [blocks_per_row, Nat.add_sub_cancel] at e
  have e1 := fun f0 => (e f0).1
  have e2 := fun f0 => (e f0).2.1
  have e3 := fun f0 => (e f0).2.2.1
  have e4 := fun f0 => (e f0).2.2.2
  simp only [e1, e2, e3, e4, update_crc_ready, h4]
  have c3 := crc_fold_lt _ (rows_bytes img img.height.toNat) c2
  rw [u32_crc_fold _ _ c3]
  simp only [idat_payload, adler_trailer, crc_fold_append, List.append_assoc]
  congr 4

/-- The function `write_zlib_chunk` aborts, before its first write, when the
value stored in `bytes_per_row` is negative. -/
theorem write_zlib_chunk_aborts (g : globals) (file : FILE) (img : image)
    (h : 2 ^ 31 ≤ (4 * img.width + 1) % 2 ^ 32) :
    write_zlib_chunk g file img = outcome.aborted file := by
  unfold write_zlib_chunk
  simp only [image_sanity_test_true, Bool.not_true, Bool.false_eq_true, if_false]
  rw [bytes_per_row_eq_wrap]
  rw [malloc_fails_of_neg _ (by omega) (by omega)]
  rfl

/-! ### Reading stored blocks back -/

theorem int_to_four_chars_zlibchunk_eq (i : Nat) :
    int_to_four_chars_zlibchunk i =
      [i % 256, i / 256 % 256, 255 - i % 256, 255 - i / 256 % 256] := by
  simp [int_to_four_chars_zlibchunk, List.range_succ, BYTE_LENGTH, Nat.shiftRight_eq_div_pow]

theorem int_to_four_chars_eq (i : Nat) : int_to_four_chars i = big_endian_4 i := by
  simp [int_to_four_chars, big_endian_4, List.range_succ, BYTE_LENGTH, Nat.shiftRight_eq_div_pow]

theorem read_one_block (fuel : Nat) (b : Nat × List Nat) (rest : List Nat)
    (hf : b.1 = 0 ∨ b.1 = 1) (hl : b.2.length ≤ 65535) :
    read_stored_blocks (fuel + 1) (encode_block b ++ rest) =
      if b.1 = 1 then some ([b], rest)
      else (read_stored_blocks fuel rest).map (fun r => (b :: r.1, r.2)) := by
  obtain ⟨f, d⟩ := b
  simp only at hf hl
  have e1 : d.length % 256 + 256 * (d.length / 256 % 256) = d.length := by omega
  have e2 : d.length % 256 + (255 - d.length % 256) = 255 := by omega
  have e3 : d.length / 256 % 256 + (255 - d.length / 256 % 256) = 255 := by omega
  have e4 : encode_block (f, d) ++ rest =
      f :: (d.length % 256) :: (d.length / 256 % 256) :: (255 - d.length % 256) ::
        (255 - d.length / 256 % 256) :: (d ++ rest) := by
    simp only [encode_block, int_to_four_chars_zlibchunk_eq, List.cons_append, List.nil_append]
  rw [e4, read_stored_blocks]
  simp only [e1, e2, e3, hf, List.length_append, true_and, Nat.le_add_right,
    if_true, List.take_left', List.drop_left']

theorem read_zero_blocks (bs : List (Nat × List Nat)) (fuel : Nat) (rest : List Nat)
    (h : ∀ b ∈ bs, b.1 = 0 ∧ b.2.length ≤ 65535) :
    read_stored_blocks (bs.length + fuel) (bs.flatMap encode_block ++ rest) =
      (read_stored_blocks fuel rest).map (fun r => (bs ++ r.1, r.2)) := by
  induction bs with
  | nil => simp
  | cons b bs ih =>
    have hb := h b (List.mem_cons_self _ _)
    have e : (b :: bs).length + fuel = (bs.length + fuel) + 1 := by simp; omega
    rw [e, List.flatMap_cons, List.append_assoc,
      read_one_block _ _ _ (Or.inl hb.1) hb.2, if_neg (by rw [hb.1]; decide),
      ih (fun b hb => h b (List.mem_cons_of_mem _ hb))]
    simp [Option.map_map, Function.comp_def]

theorem read_blocks_final (bs : List (Nat × List Nat)) (last : Nat × List Nat) (fuel : Nat)
    (rest : List Nat) (h : ∀ b ∈ bs, b.1 = 0 ∧ b.2.length ≤ 65535)
    (hl : last.1 = 1 ∧ last.2.length ≤ 65535) :
    read_stored_blocks ((bs ++ [last]).length + fuel)
      ((bs ++ [last]).flatMap encode_block ++ rest) = some (bs ++ [last], rest) := by
  have e : (bs ++ [last]).length + fuel = bs.length + (fuel + 1) := by simp; omega
  rw [e, List.flatMap_append, List.append_assoc, read_zero_blocks _ _ _ h]
  simp only [List.flatMap_cons, List.flatMap_nil, List.append_nil]
  rw [read_one_block _ _ _ (Or.inr hl.1) hl.2, if_pos hl.1]
  rfl

theorem length_le_flatMap_encode (bs : List (Nat × List Nat)) :
    bs.length ≤ (bs.flatMap encode_block).length := by
  induction bs with
  | nil => simp
  | cons b bs ih =>
    simp only [List.flatMap_cons, List.length_append, List.length_cons, encode_block]
    omega

/-! ### The stored blocks of an image -/

theorem blocks_per_row_pos (img : image) : 0 < blocks_per_row img := by
  simp [blocks_per_row]

theorem block_data_length (img : image) (i j : Nat) (hj : j < blocks_per_row img) :
    (block_data (img.width.toNat * sizeof_pixel + 1) (blocks_per_row img) (row_buffer img i) j).length
      = curblock_len (img.width.toNat * sizeof_pixel + 1) (blocks_per_row img) j := by
  simp only [block_data, List.length_take, List.length_drop, row_buffer_length, curblock_len]
  simp only [blocks_per_row, sizeof_pixel, MAX_DATA_BYTES_PER_DEFLATE_BLOCK] at *
  split <;> omega

theorem curblock_len_le (bpr nb j : Nat) : curblock_len bpr nb j ≤ 65535 := by
  simp only [curblock_len, MAX_DATA_BYTES_PER_DEFLATE_BLOCK]
  split <;> omega

theorem image_row_bytes_eq (img : image) (i : Nat) :
    image_row_bytes img i = (image_row_blocks img i).flatMap encode_block := by
  simp only [image_row_bytes, row_bytes, image_row_blocks, List.flatMap_map]
  apply List.flatMap_congr
  intro j hj
  rw [List.mem_range] at hj
  have e := block_data_length img i j hj
  simp only [row_block, encode_block]
  rw [e]
  rfl

theorem rows_bytes_eq (img : image) :
    rows_bytes img img.height.toNat = (image_blocks img).flatMap encode_block := by
  simp only [rows_bytes, image_blocks, List.flatMap_assoc]
  apply List.flatMap_congr
  intro i _
  exact image_row_bytes_eq img i

theorem block_data_length_le (bpr nb : Nat) (buffer : List Nat) (j : Nat) :
    (block_data bpr nb buffer j).length ≤ 65535 := by
  unfold block_data
  exact le_trans (List.length_take_le _ _) (curblock_len_le _ _ _)

theorem image_row_blocks_length (img : image) (i : Nat) :
    (image_row_blocks img i).length = blocks_per_row img := by
  simp [image_row_blocks]

theorem flatMap_range_length (f : Nat → List (Nat × List Nat)) (m : Nat)
    (hf : ∀ i, (f i).length = m) (n : Nat) :
    ((List.range n).flatMap f).length = n * m := by
  induction n with
  | zero => simp
  | succ n ih =>
    rw [List.range_succ, List.flatMap_append, List.length_append, ih]
    simp [hf, Nat.succ_mul]

theorem image_blocks_length (img : image) :
    (image_blocks img).length = img.height.toNat * blocks_per_row img :=
  flatMap_range_length _ _ (image_row_blocks_length img) _

theorem image_blocks_split (img : image) (hh : 1 ≤ img.height.toNat) :
    ∃ bs last, image_blocks img = bs ++ [last] ∧
      (∀ b ∈ bs, b.1 = 0 ∧ b.2.length ≤ 65535) ∧ last.1 = 1 ∧ last.2.length ≤ 65535 := by
  obtain ⟨h', hh'⟩ : ∃ h', img.height.toNat = h' + 1 := ⟨img.height.toNat - 1, by omega⟩
  obtain ⟨nb', hnb'⟩ : ∃ nb', blocks_per_row img = nb' + 1 :=
    ⟨blocks_per_row img - 1, by have := blocks_per_row_pos img; omega⟩
  refine ⟨(List.range h').flatMap (image_row_blocks img) ++
    (List.range nb').map (fun j =>
      (if h' = img.height.toNat - 1 ∧ j = blocks_per_row img - 1 then 1 else 0,
       block_data (img.width.toNat * sizeof_pixel + 1) (blocks_per_row img) (row_buffer img h') j)),
    (1, block_data (img.width.toNat * sizeof_pixel + 1) (blocks_per_row img) (row_buffer img h') nb'),
    ?_, ?_, rfl, block_data_length_le _ _ _ _⟩
  · unfold image_blocks
    rw [hh', List.range_succ, List.flatMap_append]
    simp only [List.flatMap_cons, List.flatMap_nil, List.append_nil, List.append_assoc]
    congr 1
    unfold image_row_blocks
    rw [hnb', List.range_succ, List.map_append]
    simp [hh', hnb']
  · intro b hb
    rw [List.mem_append] at hb
    rcases hb with hb | hb
    · rw [List.mem_flatMap] at hb
      obtain ⟨i, hi, hb⟩ := hb
      rw [List.mem_range] at hi
      unfold image_row_blocks at hb
      rw [List.mem_map] at hb
      obtain ⟨j, _, rfl⟩ := hb
      refine ⟨?_, block_data_length_le _ _ _ _⟩
      simp only
      rw [if_neg]
      omega
    · rw [List.mem_map] at hb
      obtain ⟨j, hj, rfl⟩ := hb
      rw [List.mem_range] at hj
      refine ⟨?_, block_data_length_le _ _ _ _⟩
      simp only
      rw [if_neg]
      omega

theorem adler_trailer_length (img : image) : (adler_trailer img).length = 4 := by
  simp [adler_trailer, int_to_four_chars_length]

theorem decode_payload (img : image) (hh : 1 ≤ img.height.toNat) :
    zlib_stored_blocks (idat_payload img) = some (image_blocks img, adler_trailer img) := by
  obtain ⟨bs, last, e, h1, h2, h3⟩ := image_blocks_split img hh
  have hlen := length_le_flatMap_encode (image_blocks img)
  unfold zlib_stored_blocks idat_payload
  rw [rows_bytes_eq]
  have e2 : List.drop 2 ([8, 29] ++ (image_blocks img).flatMap encode_block ++ adler_trailer img)
      = (image_blocks img).flatMap encode_block ++ adler_trailer img := by
    simp
  rw [e2]
  obtain ⟨k, hk⟩ : ∃ k, ([8, 29] ++ (image_blocks img).flatMap encode_block ++
      adler_trailer img).length = (image_blocks img).length + k :=
    ⟨2 + ((image_blocks img).flatMap encode_block).length + 4 - (image_blocks img).length, by
      simp only [List.length_append, adler_trailer_length, List.length_cons, List.length_nil]
      omega⟩
  rw [hk, e]
  exact read_blocks_final bs last k _ h1 ⟨h2, h3⟩

theorem image_blocks_flags (img : image) (hh : 1 ≤ img.height.toNat) :
    (image_blocks img).map Prod.fst =
      List.replicate (img.height.toNat * blocks_per_row img - 1) 0 ++ [1] := by
  obtain ⟨bs, last, e, h1, h2, _⟩ := image_blocks_split img hh
  have hl := image_blocks_length img
  rw [e] at hl ⊢
  simp only [List.length_append, List.length_cons, List.length_nil] at hl
  rw [List.map_append, List.map_cons, List.map_nil, h2]
  congr 1
  rw [List.eq_replicate_iff]
  refine ⟨by simp; omega, ?_⟩
  intro x hx
  rw [List.mem_map] at hx
  obtain ⟨b, hb, rfl⟩ := hx
  exact (h1 b hb).1

/-! ### Row buffers and scanlines -/

theorem read_pixel_bytes_eq (img : image) (s : Int) (n : Nat) :
    read_pixel_bytes img s (n * sizeof_pixel) =
      (List.range n).flatMap (fun c => pixel_bytes (img.data (s + (c : Nat)))) := by
  induction n with
  | zero => simp [read_pixel_bytes]
  | succ n ih =>
    have e : (n + 1) * sizeof_pixel = n * sizeof_pixel + 1 + 1 + 1 + 1 := by
      simp [sizeof_pixel]; ring
    unfold read_pixel_bytes at ih ⊢
    rw [e]
    simp only [List.range_succ, List.map_append, List.flatMap_append, List.map_cons, List.map_nil,
      List.flatMap_cons, List.flatMap_nil, List.append_nil, List.append_assoc]
    rw [ih]
    have d0 : n * sizeof_pixel / sizeof_pixel = n := by simp [sizeof_pixel]
    have d1 : (n * sizeof_pixel + 1) / sizeof_pixel = n := by simp [sizeof_pixel]; omega
    have d2 : (n * sizeof_pixel + 2) / sizeof_pixel = n := by simp [sizeof_pixel]; omega
    have d3 : (n * sizeof_pixel + 3) / sizeof_pixel = n := by simp [sizeof_pixel]; omega
    have m0 : n * sizeof_pixel % sizeof_pixel = 0 := by simp [sizeof_pixel]
    have m1 : (n * sizeof_pixel + 1) % sizeof_pixel = 1 := by simp [sizeof_pixel]; omega
    have m2 : (n * sizeof_pixel + 2) % sizeof_pixel = 2 := by simp [sizeof_pixel]; omega
    have m3 : (n * sizeof_pixel + 3) % sizeof_pixel = 3 := by simp [sizeof_pixel]; omega
    rw [d0, d1, d2, d3, m0, m1, m2, m3]
    rfl

theorem row_buffer_eq (img : image) (i : Nat) : row_buffer img i = scanline img i := by
  simp only [row_buffer, scanline, read_pixel_bytes_eq, pixel_at, pixel_index, add_zero]

theorem rows_data_eq (img : image) : rows_data img img.height.toNat = filtered_data img := by
  simp only [rows_data, filtered_data]
  apply List.flatMap_congr
  intro i _
  exact row_buffer_eq img i

theorem carat_after_succ (bpr nb n : Nat) (hn : n < nb) :
    carat_after bpr nb (n + 1) = carat_after bpr nb n + curblock_len bpr nb n := by
  simp only [carat_after, curblock_len]
  rw [if_pos hn]
  by_cases h2 : n + 1 < nb
  · rw [if_pos h2, if_neg (by omega)]; ring
  · rw [if_neg h2, if_pos (by omega)]
    have : nb - 1 = n := by omega
    rw [this]

theorem block_data_concat (bpr nb : Nat) (buffer : List Nat) (hnb : 0 < nb) (n : Nat)
    (hn : n ≤ nb) :
    (List.range n).flatMap (block_data bpr nb buffer) = buffer.take (carat_after bpr nb n) := by
  induction n with
  | zero => simp [carat_after, hnb]
  | succ n ih =>
    rw [List.range_succ, List.flatMap_append, ih (by omega), carat_after_succ _ _ _ (by omega),
      List.take_add]
    simp only [List.flatMap_cons, List.flatMap_nil, List.append_nil, block_data]
    congr 2
    simp only [carat_after]
    rw [if_pos (by omega)]

/-! ### Adler-32 -/

theorem adler32_fold_eq (data : List Nat) (a b : Nat) :
    data.foldl (fun (s : Nat × Nat) d =>
      (u32 (s.1 + d) % MOD_ADLER, u32 (s.2 + u32 (s.1 + d) % MOD_ADLER) % MOD_ADLER)) (a, b) =
    ((adler32_update ⟨a, b⟩ data data.length).a, (adler32_update ⟨a, b⟩ data data.length).b) := by
  induction data generalizing a b with
  | nil => simp [adler32_update]
  | cons d ds ih =>
    rw [List.foldl_cons, ih]
    simp [adler32_update]

theorem adler32_eq_update (data : List Nat) :
    adler32 data data.length =
      u32 ((adler32_update adler32_init data data.length).b <<< 16) |||
        (adler32_update adler32_init data data.length).a := by
  simp only [adler32, List.take_length]
  rw [adler32_fold_eq]
  rfl

theorem adler32_update_a_lt (ad : adler32_data) (data : List Nat) (len : Nat)
    (h : ad.a < 65521) : (adler32_update ad data len).a < 65521 := by
  unfold adler32_update
  generalize data.take len = xs
  induction xs generalizing ad with
  | nil => simpa using h
  | cons d ds ih =>
    rw [List.foldl_cons]
    apply ih
    exact Nat.mod_lt _ (by decide)

theorem adler32_lt (data : List Nat) : adler32 data data.length < 2 ^ 32 := by
  rw [adler32_eq_update]
  apply Nat.or_lt_two_pow
  · exact Nat.mod_lt _ (by norm_num)
  · have := adler32_update_a_lt adler32_init data data.length (by simp [adler32_init])
    omega

theorem int_to_ulong_u32_to_int (v : Nat) (hv : v < 2 ^ 32) :
    int_to_ulong (u32_to_int v) = if v < 2 ^ 31 then v else v + (2 ^ 64 - 2 ^ 32) := by
  unfold int_to_ulong u32_to_int
  rw [Nat.mod_eq_of_lt hv]
  split <;> omega

theorem big_endian_4_signed (v : Nat) (hv : v < 2 ^ 32) :
    big_endian_4 (int_to_ulong (u32_to_int v)) = big_endian_4 v := by
  rw [int_to_ulong_u32_to_int v hv]
  split
  · rfl
  · simp only [big_endian_4]
    norm_num
    refine ⟨?_, ?_, ?_, ?_⟩ <;> omega

theorem adler_trailer_eq (img : image) :
    adler_trailer img = big_endian_4 (adler32 (filtered_data img) (filtered_data img).length) := by
  unfold adler_trailer adler32_sum
  rw [int_to_four_chars_eq, rows_data_eq, ← adler32_eq_update,
    big_endian_4_signed _ (adler32_lt _)]

/-! ### Chunks -/

theorem crc32_eq (buf : List Nat) : crc32 buf = crc_fold 0xffffffff buf ^^^ 0xffffffff := by
  simp only [crc32, crc_eq _ globals_init_valid]

theorem crc_snd (g : globals) (hg : g.valid) (buf : List Nat) :
    (crc g buf buf.length).2 = crc32 buf := by
  rw [crc_eq g hg, crc32_eq]

theorem strncpy_length (s : List Nat) (n : Nat) : (strncpy s n).length = n := by
  induction n generalizing s with
  | zero => cases s <;> simp [strncpy]
  | succ n ih =>
    cases s with
    | nil => simp [strncpy]
    | cons c cs =>
      simp only [strncpy]
      split
      · simp
      · simp [ih]

theorem strncpy_eq (t : List Nat) (n : Nat) (hlen : t.length = n)
    (h : ∀ a b : List Nat, t = a ++ 0 :: b → ∀ c ∈ b, c = 0) : strncpy t n = t := by
  induction t generalizing n with
  | nil => subst hlen; simp [strncpy]
  | cons c cs ih =>
    subst hlen
    simp only [List.length_cons, strncpy]
    split
    · rename_i hc
      subst hc
      have h0 := h [] cs rfl
      rw [List.replicate_succ]
      congr 1
      exact (List.eq_replicate_iff.mpr ⟨rfl, h0⟩).symm
    · congr 1
      apply ih _ rfl
      intro a b hab
      exact h (c :: a) b (by rw [hab]; rfl)

theorem write_chunk_eq (g : globals) (hg : g.valid) (file : FILE) (chunk : png_chunk)
    (ht : chunk.type.length = 4) (hd : chunk.data.length = chunk.len) :
    write_chunk g file chunk = (globals_ready,
      file ++ (big_endian_4 chunk.len ++ chunk.type ++ chunk.data ++
        big_endian_4 (crc32 (chunk.type ++ chunk.data)))) := by
  have h4 : ∀ x : Nat, List.take 4 (big_endian_4 x) = big_endian_4 x := fun x => rfl
  have e1 : List.take PNG_CHUNK_TYPE_LENGTH chunk.type = chunk.type :=
    List.take_of_length_le (by rw [ht]; decide)
  have e2 : List.take chunk.len chunk.data = chunk.data :=
    List.take_of_length_le (by rw [hd])
  simp only [write_chunk, fwrite, update_crc_of_valid g hg, update_crc_ready, e1, e2,
    ← crc_fold_append, crc32_eq, int_to_four_chars_eq, h4, List.append_assoc]

theorem create_chunk_wf (t : List Nat) (p : List Nat) :
    (create_chunk t p.length p).type.length = 4 ∧
      (create_chunk t p.length p).data.length = (create_chunk t p.length p).len := by
  simp [create_chunk, strncpy_length, PNG_CHUNK_TYPE_LENGTH]

/-! ### The bytes of the IDAT chunk -/

theorem big_endian_4_length (n : Nat) : (big_endian_4 n).length = 4 := rfl

theorem be_value_big_endian_4 (n : Nat) : be_value (big_endian_4 n) = n % 2 ^ 32 := by
  simp only [be_value, big_endian_4, List.foldl_cons, List.foldl_nil]
  omega

theorem write_zlib_chunk_bytes (g : globals) (hg : g.valid) (file : FILE) (img : image)
    (hw : 0 ≤ img.width) (hr : 4 * img.width + 1 < 2 ^ 31) :
    write_zlib_chunk g file img = outcome.returned globals_ready (file ++ zlib_chunk_bytes img) := by
  rw [write_zlib_chunk_eq g hg file img hw hr]
  simp only [zlib_chunk_bytes, int_to_four_chars_eq, crc32_eq, List.append_assoc]

theorem chunk_payload_zlib_chunk_bytes (img : image) :
    chunk_payload (zlib_chunk_bytes img) = idat_payload img := by
  unfold chunk_payload zlib_chunk_bytes
  have e : (big_endian_4 (int_to_ulong (num_chunk_bytes img)) ++ str_IDAT ++ idat_payload img ++
      big_endian_4 (crc32 (str_IDAT ++ idat_payload img))).length - 12
      = (idat_payload img).length := by
    simp [big_endian_4_length, str_IDAT]
    omega
  rw [e]
  have e2 : List.drop 8 (big_endian_4 (int_to_ulong (num_chunk_bytes img)) ++ str_IDAT ++ idat_payload img ++
      big_endian_4 (crc32 (str_IDAT ++ idat_payload img)))
      = idat_payload img ++ big_endian_4 (crc32 (str_IDAT ++ idat_payload img)) := by
    simp [big_endian_4, str_IDAT]
  rw [e2, List.take_left']
  rfl

theorem image_blocks_data (img : image) :
    (image_blocks img).flatMap Prod.snd =
      (List.range img.height.toNat).flatMap (fun i => (scanline img i).take
        (carat_after (img.width.toNat * sizeof_pixel + 1) (blocks_per_row img) (blocks_per_row img))) := by
  simp only [image_blocks, List.flatMap_assoc]
  apply List.flatMap_congr
  intro i _
  simp only [image_row_blocks, List.flatMap_map]
  rw [← row_buffer_eq]
  exact block_data_concat _ _ _ (blocks_per_row_pos img) _ (le_refl _)

theorem image_blocks_lengths (img : image) :
    (image_blocks img).map (fun b => b.2.length) =
      (List.range img.height.toNat).flatMap (fun _ => (List.range (blocks_per_row img)).map
        (curblock_len (img.width.toNat * sizeof_pixel + 1) (blocks_per_row img))) := by
  simp only [image_blocks, List.map_flatMap]
  apply List.flatMap_congr
  intro i _
  simp only [image_row_blocks, List.map_map]
  apply List.map_congr_left
  intro j hj
  rw [List.mem_range] at hj
  exact block_data_length img i j hj

theorem scanline_length (img : image) (i : Nat) :
    (scanline img i).length = img.width.toNat * sizeof_pixel + 1 := by
  rw [← row_buffer_eq, row_buffer_length]

theorem carat_after_of_not_multiple (img : image)
    (h : (img.width.toNat * sizeof_pixel + 1) % MAX_DATA_BYTES_PER_DEFLATE_BLOCK ≠ 0) :
    carat_after (img.width.toNat * sizeof_pixel + 1) (blocks_per_row img) (blocks_per_row img)
      = img.width.toNat * sizeof_pixel + 1 := by
  simp only [carat_after, blocks_per_row, sizeof_pixel, MAX_DATA_BYTES_PER_DEFLATE_BLOCK] at *
  generalize img.width.toNat = w at *
  rw [if_neg (by omega)]
  omega

theorem carat_after_of_multiple (img : image)
    (h : (img.width.toNat * sizeof_pixel + 1) % MAX_DATA_BYTES_PER_DEFLATE_BLOCK = 0) :
    carat_after (img.width.toNat * sizeof_pixel + 1) (blocks_per_row img) (blocks_per_row img)
      = img.width.toNat * sizeof_pixel + 1 - MAX_DATA_BYTES_PER_DEFLATE_BLOCK := by
  simp only [carat_after, blocks_per_row, sizeof_pixel, MAX_DATA_BYTES_PER_DEFLATE_BLOCK] at *
  generalize img.width.toNat = w at *
  rw [if_neg (by omega)]
  omega

/-- Round trip away from the exact-multiple rows. -/
theorem round_trip_of_not_multiple (g : globals) (hg : g.valid) (file : FILE) (img : image)
    (hw : 0 ≤ img.width) (hr : 4 * img.width + 1 < 2 ^ 31)
    (hh : 1 ≤ img.height.toNat)
    (hm : (img.width.toNat * sizeof_pixel + 1) % MAX_DATA_BYTES_PER_DEFLATE_BLOCK ≠ 0) :
    ∃ g1 out, write_zlib_chunk g file img = outcome.returned g1 (file ++ out) ∧
      zlib_stored_data (chunk_payload out) = some (filtered_data img) := by
  refine ⟨_, _, write_zlib_chunk_bytes g hg file img hw hr, ?_⟩
  rw [chunk_payload_zlib_chunk_bytes, zlib_stored_data, decode_payload img hh]
  simp only [Option.map_some', image_blocks_data, carat_after_of_not_multiple img hm,
    filtered_data]
  congr 1
  apply List.flatMap_congr
  intro i _
  exact List.take_of_length_le (by rw [scanline_length])

/-! ### Lengths -/

theorem flatMap_range_length_const (f : Nat → List Nat) (m : Nat)
    (hf : ∀ i, (f i).length = m) (n : Nat) :
    ((List.range n).flatMap f).length = n * m := by
  induction n with
  | zero => simp
  | succ n ih =>
    rw [List.range_succ, List.flatMap_append, List.length_append, ih]
    simp [hf, Nat.succ_mul]

theorem filtered_data_length (img : image) :
    (filtered_data img).length = img.height.toNat * (img.width.toNat * sizeof_pixel + 1) :=
  flatMap_range_length_const _ _ (scanline_length img) _

theorem encode_block_length (b : Nat × List Nat) : (encode_block b).length = 5 + b.2.length := by
  simp only [encode_block, List.length_append, int_to_four_chars_zlibchunk_length,
    List.length_cons, List.length_nil]

theorem row_bytes_length (img : image) (i n : Nat) (hn : n ≤ blocks_per_row img) :
    (row_bytes img.height.toNat (img.width.toNat * sizeof_pixel + 1) (blocks_per_row img) (row_buffer img i)
      i n).length =
      5 * n + carat_after (img.width.toNat * sizeof_pixel + 1) (blocks_per_row img) n := by
  induction n with
  | zero => simp [row_bytes, carat_after, blocks_per_row_pos img]
  | succ n ih =>
    have h1 := block_data_length img i n (by omega)
    unfold block_data at h1
    rw [row_bytes, List.range_succ, List.flatMap_append, List.length_append, ← row_bytes,
      ih (by omega), carat_after_succ _ _ _ (by omega)]
    simp only [List.flatMap_cons, List.flatMap_nil, List.append_nil, row_block,
      List.length_append, int_to_four_chars_zlibchunk_length, List.length_cons, List.length_nil,
      h1]
    omega

theorem rows_bytes_length (img : image) (n : Nat) :
    (rows_bytes img n).length =
      n * (5 * blocks_per_row img +
        carat_after (img.width.toNat * sizeof_pixel + 1) (blocks_per_row img) (blocks_per_row img)) :=
  flatMap_range_length_const _ _ (fun i => row_bytes_length img i _ (le_refl _)) _

theorem idat_payload_length (img : image) :
    (idat_payload img).length =
      2 + img.height.toNat * (5 * blocks_per_row img +
        carat_after (img.width.toNat * sizeof_pixel + 1) (blocks_per_row img) (blocks_per_row img))
        + 4 := by
  simp only [idat_payload, List.length_append, rows_bytes_length, adler_trailer_length,
    List.length_cons, List.length_nil]

theorem big_endian_4_mod (n : Nat) : big_endian_4 (n % 2 ^ 64) = big_endian_4 n := by
  simp only [big_endian_4]
  refine congrArg₂ List.cons (by omega) (congrArg₂ List.cons (by omega)
    (congrArg₂ List.cons (by omega) (congrArg₂ List.cons (by omega) rfl)))

theorem big_endian_4_int_to_ulong (n : Nat) :
    big_endian_4 (int_to_ulong (n : Int)) = big_endian_4 n := by
  have e : int_to_ulong (n : Int) = n % 2 ^ 64 := by
    unfold int_to_ulong
    omega
  rw [e, big_endian_4_mod]

theorem stored_data_of_payload (img : image) (hh : 1 ≤ img.height.toNat) :
    zlib_stored_data (idat_payload img) =
      some ((List.range img.height.toNat).flatMap (fun i => (scanline img i).take
        (carat_after (img.width.toNat * sizeof_pixel + 1) (blocks_per_row img)
          (blocks_per_row img)))) := by
  rw [zlib_stored_data, decode_payload img hh]
  simp only [Option.map_some', image_blocks_data]

theorem stored_data_length_of_multiple (img : image) (hh : 1 ≤ img.height.toNat)
    (hm : (img.width.toNat * sizeof_pixel + 1) % MAX_DATA_BYTES_PER_DEFLATE_BLOCK = 0) :
    (zlib_stored_data (idat_payload img)).map List.length =
      some (img.height.toNat * (img.width.toNat * sizeof_pixel + 1 - MAX_DATA_BYTES_PER_DEFLATE_BLOCK)) := by
  rw [stored_data_of_payload img hh, carat_after_of_multiple img hm, Option.map_some']
  refine congrArg some ?_
  apply flatMap_range_length_const
  intro i
  rw [List.length_take, scanline_length]
  omega

theorem write_zlib_chunk_bytes_nil (g : globals) (hg : g.valid) (img : image)
    (hw : 0 ≤ img.width) (hr : 4 * img.width + 1 < 2 ^ 31) :
    write_zlib_chunk g [] img = outcome.returned globals_ready (zlib_chunk_bytes img) := by
  simpa using write_zlib_chunk_bytes g hg [] img hw hr

theorem block_lengths_at_width_49151 (data : Int → pixel) :
    (image_blocks ⟨49151, 1, data⟩).map (fun b => b.2.length) = [65535, 65535, 0] := by
  have t : (49151 : Int).toNat = 49151 := rfl
  have e : blocks_per_row ⟨49151, 1, data⟩ = 3 := by
    norm_num [blocks_per_row, sizeof_pixel, MAX_DATA_BYTES_PER_DEFLATE_BLOCK, t]
  have h : (List.range 1).flatMap (fun _ =>
      (List.range (blocks_per_row ⟨49151, 1, data⟩)).map
        (curblock_len (49151 * sizeof_pixel + 1) (blocks_per_row ⟨49151, 1, data⟩))) =
      [65535, 65535, 0] := by
    rw [e]
    simp [List.range_succ, curblock_len, sizeof_pixel, MAX_DATA_BYTES_PER_DEFLATE_BLOCK]
  exact (image_blocks_lengths _).trans h

/-! ### Parts of the IDAT chunk -/

theorem write_and_free_chunk_eq (g : globals) (hg : g.valid) (file : FILE) (t p : List Nat)
    (ht : strncpy t PNG_CHUNK_TYPE_LENGTH = t) :
    write_and_free_chunk g file (create_chunk t p.length p) =
      (globals_ready, file ++ framed_chunk t p) := by
  have hw := create_chunk_wf t p
  unfold write_and_free_chunk
  rw [write_chunk_eq g hg file _ hw.1 hw.2]
  simp only [create_chunk, List.take_length, ht, framed_chunk]

theorem zlib_chunk_bytes_type (img : image) :
    ((zlib_chunk_bytes img).drop 4).take 4 = str_IDAT := by
  simp [zlib_chunk_bytes, big_endian_4, str_IDAT]

theorem zlib_chunk_bytes_length (img : image) :
    (zlib_chunk_bytes img).length = 12 + (idat_payload img).length := by
  simp only [zlib_chunk_bytes, List.length_append, big_endian_4_length, str_IDAT,
    List.length_cons, List.length_nil]
  omega

theorem zlib_chunk_bytes_drop_4 (img : image) :
    (zlib_chunk_bytes img).drop 4 =
      str_IDAT ++ idat_payload img ++ big_endian_4 (crc32 (str_IDAT ++ idat_payload img)) := by
  simp [zlib_chunk_bytes, big_endian_4]

theorem zlib_chunk_bytes_last_4 (img : image) :
    (zlib_chunk_bytes img).drop ((zlib_chunk_bytes img).length - 4) =
      big_endian_4 (crc32 (str_IDAT ++ idat_payload img)) := by
  have e : (zlib_chunk_bytes img).length - 4 =
      (big_endian_4 (int_to_ulong (num_chunk_bytes img)) ++ str_IDAT ++ idat_payload img).length := by
    rw [zlib_chunk_bytes_length]
    simp only [List.length_append, big_endian_4_length, str_IDAT, List.length_cons,
      List.length_nil]
    omega
  rw [e]
  unfold zlib_chunk_bytes
  rw [List.drop_left]

theorem zlib_chunk_bytes_adler (img : image) :
    ((zlib_chunk_bytes img).drop ((zlib_chunk_bytes img).length - 8)).take 4 =
      adler_trailer img := by
  have e : (zlib_chunk_bytes img).length - 8 =
      (big_endian_4 (int_to_ulong (num_chunk_bytes img)) ++ str_IDAT ++
        ([8, 29] ++ rows_bytes img img.height.toNat)).length := by
    rw [zlib_chunk_bytes_length]
    simp only [idat_payload, List.length_append, big_endian_4_length, str_IDAT, List.length_cons,
      List.length_nil, adler_trailer_length]
    omega
  have e2 : zlib_chunk_bytes img =
      (big_endian_4 (int_to_ulong (num_chunk_bytes img)) ++ str_IDAT ++ ([8, 29] ++ rows_bytes img img.height.toNat))
        ++ (adler_trailer img ++ big_endian_4 (crc32 (str_IDAT ++ idat_payload img))) := by
    simp only [zlib_chunk_bytes, idat_payload, List.append_assoc]
  rw [e]
  nth_rewrite 1 [e2]
  rw [List.drop_left, List.take_left' (adler_trailer_length img)]

theorem zlib_chunk_bytes_take_4 (img : image) :
    (zlib_chunk_bytes img).take 4 = big_endian_4 (int_to_ulong (num_chunk_bytes img)) := by
  simp [zlib_chunk_bytes, big_endian_4]

theorem blocks_per_row_eq_ceil (w : Nat) :
    (w * 4 + 1 - 1) / 65535 + 1 = ceil_div (w * 4 + 1) 65535 := by
  unfold ceil_div
  omega

/-! ### Closed form of `write_PNG_image_to_file` -/

theorem png_head_length (img : image) : (png_head img).length = 64 := by
  simp only [png_head, framed_chunk, List.length_append, big_endian_4_length, str_IHDR, str_sRGB,
    str_bKGD, List.length_cons, List.length_nil]

theorem write_PNG_head (g : globals) (hg : g.valid) (file : FILE) (img : image) :
    write_PNG_image_to_file g file img =
      match write_zlib_chunk globals_ready (file ++ png_head img) img with
      | outcome.aborted f => outcome.aborted f
      | outcome.returned g4 f4 =>
        outcome.returned (write_and_free_chunk g4 f4 (create_chunk str_IEND 0 [])).1
          (write_and_free_chunk g4 f4 (create_chunk str_IEND 0 [])).2 := by
  unfold write_PNG_image_to_file
  have e1 : create_IHDR_DATA img.width img.height COL_BIT_DEPTH TRUE_COLOR_WITH_ALPHA 0 0 0 =
      create_chunk str_IHDR
        (big_endian_4 (int_to_ulong img.width) ++ big_endian_4 (int_to_ulong img.height) ++
          [8, 6, 0, 0, 0]).length
        (big_endian_4 (int_to_ulong img.width) ++ big_endian_4 (int_to_ulong img.height) ++
          [8, 6, 0, 0, 0]) := by
    simp [create_IHDR_DATA, int_to_four_chars_eq, COL_BIT_DEPTH, TRUE_COLOR_WITH_ALPHA,
      big_endian_4_length]
  have e2 : create_chunk str_sRGB 1 [0] = create_chunk str_sRGB ([0] : List Nat).length [0] :=
    rfl
  have e3 : create_chunk str_bKGD bKGD_LEN bKGD =
      create_chunk str_bKGD ([0, 255, 0, 255, 0, 255] : List Nat).length
        [0, 255, 0, 255, 0, 255] := rfl
  have e5 : fprintf_s file PNG_HEADER = file ++ [137, 80, 78, 71, 13, 10, 26, 10] := by
    simp [fprintf_s, cstr, PNG_HEADER]
  simp only [e1, e2, e3, e5]
  rw [write_and_free_chunk_eq g hg _ _ _ rfl]
  simp only []
  rw [write_and_free_chunk_eq _ globals_ready_valid _ _ _ rfl]
  simp only []
  rw [write_and_free_chunk_eq _ globals_ready_valid _ _ _ rfl]
  simp only [png_head, List.append_assoc]

theorem write_PNG_image_to_file_eq (g : globals) (hg : g.valid) (file : FILE) (img : image)
    (hw : 0 ≤ img.width) (hr : 4 * img.width + 1 < 2 ^ 31) :
    write_PNG_image_to_file g file img =
      outcome.returned globals_ready (file ++ png_bytes img) := by
  rw [write_PNG_head g hg, write_zlib_chunk_bytes _ globals_ready_valid _ _ hw hr]
  simp only []
  have e4 : create_chunk str_IEND 0 [] = create_chunk str_IEND ([] : List Nat).length [] := rfl
  rw [e4, write_and_free_chunk_eq _ globals_ready_valid _ _ _ rfl]
  simp only [png_bytes, List.append_assoc]

/-- The function `write_PNG_image_to_file` aborts, with the signature and the
chunks `IHDR`, `sRGB`, `bKGD` written, when the value stored in `bytes_per_row`
is negative. -/
theorem write_PNG_image_to_file_aborts (g : globals) (hg : g.valid) (file : FILE) (img : image)
    (h : 2 ^ 31 ≤ (4 * img.width + 1) % 2 ^ 32) :
    write_PNG_image_to_file g file img = outcome.aborted (file ++ png_head img) := by
  rw [write_PNG_head g hg, write_zlib_chunk_aborts _ _ _ h]

/-! ### Rasters with non-negative dimensions -/

theorem nat_width_in_range (w : Nat) (hr : 4 * w + 1 < 2 ^ 31) :
    4 * (w : Int) + 1 < 2 ^ 31 := by
  omega

theorem write_zlib_chunk_nat (g : globals) (hg : g.valid) (file : FILE) (w h : Nat)
    (data : Int → pixel) (hr : 4 * w + 1 < 2 ^ 31) :
    write_zlib_chunk g file ⟨w, h, data⟩ =
      outcome.returned globals_ready (file ++ zlib_chunk_bytes ⟨w, h, data⟩) :=
  write_zlib_chunk_bytes g hg file ⟨w, h, data⟩ (Int.ofNat_nonneg w) (nat_width_in_range w hr)

theorem write_PNG_image_to_file_nat (g : globals) (hg : g.valid) (file : FILE) (w h : Nat)
    (data : Int → pixel) (hr : 4 * w + 1 < 2 ^ 31) :
    write_PNG_image_to_file g file ⟨w, h, data⟩ =
      outcome.returned globals_ready (file ++ png_bytes ⟨w, h, data⟩) :=
  write_PNG_image_to_file_eq g hg file ⟨w, h, data⟩ (Int.ofNat_nonneg w)
    (nat_width_in_range w hr)

theorem blocks_per_row_nat (w h : Nat) (data : Int → pixel) :
    blocks_per_row ⟨w, h, data⟩ = (4 * w + 1 - 1) / 65535 + 1 := by
  simp only [blocks_per_row, Int.toNat_ofNat, sizeof_pixel, MAX_DATA_BYTES_PER_DEFLATE_BLOCK,
    Nat.mul_comm w 4]

theorem num_chunk_bytes_nat (w h : Nat) (data : Int → pixel) :
    num_chunk_bytes ⟨w, h, data⟩ =
      ((2 + h * ((4 * w + 1) + 5 * ((4 * w + 1 - 1) / 65535 + 1)) + 4 : Nat) : Int) := by
  simp only [num_chunk_bytes, blocks_per_row_nat, Int.toNat_ofNat, sizeof_pixel, DEFLATE_OVERHEAD,
    Nat.mul_comm w 4]
  push_cast
  rfl

theorem length_field_nat (w h : Nat) (data : Int → pixel) :
    be_value ((zlib_chunk_bytes ⟨w, h, data⟩).take 4) =
      (2 + h * ((4 * w + 1) + 5 * ((4 * w + 1 - 1) / 65535 + 1)) + 4) % 2 ^ 32 := by
  rw [zlib_chunk_bytes_take_4, num_chunk_bytes_nat, big_endian_4_int_to_ulong,
    be_value_big_endian_4]

/-- C1, code defect.  For every raster of width 49151 and height 1 (row byte
count 196605 = 3 * 65535) the payload `write_zlib_chunk` writes decodes to
131070 bytes, while the raster's filtered data (the byte 0 and the 4 * 49151
pixel bytes) has 196605 bytes: the decoded data is not the raster. -/
theorem round_trip_fails_at_width_49151 (data : Int → pixel) :
    ∃ g1 out, write_zlib_chunk globals_init [] ⟨49151, 1, data⟩ = outcome.returned g1 out ∧
      (zlib_stored_data (chunk_payload out)).map List.length = some 131070 ∧
      (filtered_data ⟨49151, 1, data⟩).length = 196605 ∧
      zlib_stored_data (chunk_payload out) ≠ some (filtered_data ⟨49151, 1, data⟩) := by
  have t : (49151 : Int).toNat = 49151 := rfl
  have t1 : (1 : Int).toNat = 1 := rfl
  have h1 := stored_data_length_of_multiple ⟨49151, 1, data⟩ (le_of_eq t1.symm)
    (by norm_num [sizeof_pixel, MAX_DATA_BYTES_PER_DEFLATE_BLOCK, t])
  have h2 := filtered_data_length ⟨49151, 1, data⟩
  have e1 : (1 : Nat) * (49151 * sizeof_pixel + 1 - MAX_DATA_BYTES_PER_DEFLATE_BLOCK) = 131070 := by
    norm_num [sizeof_pixel, MAX_DATA_BYTES_PER_DEFLATE_BLOCK]
  have e2 : (1 : Nat) * (49151 * sizeof_pixel + 1) = 196605 := by
    norm_num [sizeof_pixel]
  simp only [t, t1, e1] at h1
  simp only [t, t1, e2] at h2
  refine ⟨globals_ready, zlib_chunk_bytes ⟨49151, 1, data⟩, ?_, ?_, h2, ?_⟩
  · exact write_zlib_chunk_bytes_nil globals_init globals_init_valid ⟨49151, 1, data⟩
      (by norm_num) (by norm_num)
  · rw [chunk_payload_zlib_chunk_bytes]
    exact h1
  · rw [chunk_payload_zlib_chunk_bytes]
    intro h
    rw [h, Option.map_some', h2] at h1
    exact absurd h1 (by norm_num)

/-- C2, code defect.  For every raster of width 49151 and height 1 the row byte
count 4 * 49151 + 1 = 196605 is 3 * 65535, and the stored blocks
`write_zlib_chunk` writes for the row are three in number with data lengths
65535, 65535 and 0: the last block has length 0, not 65535. -/
theorem zero_length_block_at_width_49151 (data : Int → pixel) :
    (4 * 49151 + 1) % 65535 = 0 ∧ (4 * 49151 + 1) / 65535 = 3 ∧
    ∃ g1 out blocks trailer,
      write_zlib_chunk globals_init [] ⟨49151, 1, data⟩ = outcome.returned g1 out ∧
      zlib_stored_blocks (chunk_payload out) = some (blocks, trailer) ∧
      blocks.map (fun b => b.2.length) = [65535, 65535, 0] := by
  have t1 : (1 : Int).toNat = 1 := rfl
  refine ⟨by norm_num, by norm_num, globals_ready, zlib_chunk_bytes ⟨49151, 1, data⟩,
    image_blocks ⟨49151, 1, data⟩, adler_trailer ⟨49151, 1, data⟩, ?_, ?_, ?_⟩
  · exact write_zlib_chunk_bytes_nil globals_init globals_init_valid ⟨49151, 1, data⟩
      (by norm_num) (by norm_num)
  · rw [chunk_payload_zlib_chunk_bytes, decode_payload _ (le_of_eq t1.symm)]
  · exact block_lengths_at_width_49151 data

/-- C3, counterexample.  For the 4-byte tag 65, 0, 66, 67 and the empty payload
the bytes `write_chunk` emits for `create_chunk(t, 0, p)` are not the length,
the four bytes of the tag, the payload and the CRC of tag and payload:
`strncpy` stops at the zero byte, so the tag written is 65, 0, 0, 0. -/
theorem write_chunk_tag_with_zero_byte :
    (write_chunk globals_init [] (create_chunk [65, 0, 66, 67] 0 [])).2 ≠
      [] ++ (big_endian_4 0 ++ [65, 0, 66, 67] ++ [] ++
        big_endian_4 (crc globals_init ([65, 0, 66, 67] ++ []) 4).2) ∧
    ((write_chunk globals_init [] (create_chunk [65, 0, 66, 67] 0 [])).2.drop 4).take 4 =
      [65, 0, 0, 0] := by
  refine ⟨?_, ?_⟩ <;> decide

/-- C3, amended.  For every 4-byte type tag `t` in which no nonzero byte follows
a zero byte and every payload `p` with `len(p) < 2^31`, `write_chunk` applied to
`create_chunk(t, len(p), p)` appends exactly: the 4-byte big-endian encoding of
`len(p)` (which decodes back to `len(p)`), the 4 bytes of `t`, the bytes of `p`,
and the 4-byte big-endian encoding of `crc` of `t` followed by `p`; that is
`12 + len(p)` bytes. -/
theorem write_chunk_framing (g : globals) (hg : g.valid) (file : FILE) (t p : List Nat)
    (ht : t.length = 4) (hz : ∀ a b : List Nat, t = a ++ 0 :: b → ∀ c ∈ b, c = 0)
    (hp : p.length < 2 ^ 31) :
    (write_chunk g file (create_chunk t p.length p)).2 =
      file ++ (big_endian_4 p.length ++ t ++ p ++
        big_endian_4 (crc g (t ++ p) (4 + p.length)).2) ∧
    be_value (big_endian_4 p.length) = p.length ∧
    (big_endian_4 p.length ++ t ++ p ++
        big_endian_4 (crc g (t ++ p) (4 + p.length)).2).length = 12 + p.length := by
  have hc : (crc g (t ++ p) (4 + p.length)).2 = crc32 (t ++ p) := by
    have := crc_snd g hg (t ++ p)
    rwa [List.length_append, ht] at this
  have hw := create_chunk_wf t p
  refine ⟨?_, ?_, ?_⟩
  · rw [write_chunk_eq g hg file _ hw.1 hw.2, hc]
    simp only [create_chunk, List.take_length, PNG_CHUNK_TYPE_LENGTH, strncpy_eq t 4 ht hz]
  · rw [be_value_big_endian_4]
    omega
  · simp only [List.length_append, big_endian_4_length, ht]
    omega

/-- C3, amended: an instance, the chunk `sRGB` with payload 0 written in a fresh
process. -/
theorem write_chunk_framing_witness :
    globals_init.valid ∧ str_sRGB.length = 4 ∧
    (∀ a b : List Nat, str_sRGB = a ++ 0 :: b → ∀ c ∈ b, c = 0) ∧
    ([0] : List Nat).length < 2 ^ 31 ∧
    ((write_chunk globals_init [] (create_chunk str_sRGB ([0] : List Nat).length [0])).2 =
      [] ++ (big_endian_4 ([0] : List Nat).length ++ str_sRGB ++ [0] ++
        big_endian_4 (crc globals_init (str_sRGB ++ [0]) (4 + ([0] : List Nat).length)).2) ∧
    be_value (big_endian_4 ([0] : List Nat).length) = ([0] : List Nat).length ∧
    (big_endian_4 ([0] : List Nat).length ++ str_sRGB ++ [0] ++
        big_endian_4 (crc globals_init (str_sRGB ++ [0]) (4 + ([0] : List Nat).length)).2).length
      = 12 + ([0] : List Nat).length) :=
  have hz : ∀ a b : List Nat, str_sRGB = a ++ 0 :: b → ∀ c ∈ b, c = 0 := by
    intro a b h
    have hm : (0 : Nat) ∈ str_sRGB := by rw [h]; simp
    exact absurd hm (by decide)
  ⟨globals_init_valid, rfl, hz, by decide,
    write_chunk_framing globals_init globals_init_valid [] str_sRGB [0] rfl hz (by decide)⟩

/-! ### The rows that are an exact multiple of 65535 -/

/-- C5, counterexample.  For the raster of width 536870912 = 2^29 and height 1,
`write_zlib_chunk` aborts on the assertion that the buffer was allocated,
before it has written any byte: there are no last four bytes and no CRC. -/
theorem idat_crc_fails_at_width_536870912 :
    write_zlib_chunk globals_init [] ⟨536870912, 1, fun _ => ⟨0, 0, 0, 0⟩⟩ =
      outcome.aborted [] := by
  decide

/-- C5, amended.  IDAT CRC: for every raster with width and height at least 0
whose row size `4 * width + 1` fits in an `int` (is below 2^31),
`write_zlib_chunk` returns, and the last four bytes it writes are the
big-endian encoding of `crc`, computed in one pass, of the 4 bytes `IDAT`
followed by every byte written between the type tag and those last four bytes;
from the type tag on, the bytes written are those `write_chunk` writes for the
chunk of type `IDAT` with that payload, so the CRC accumulated piecewise is the
one-shot chunk CRC. -/
theorem idat_crc (g : globals) (hg : g.valid) (file : FILE) (w h : Nat) (data : Int → pixel)
    (hr : 4 * w + 1 < 2 ^ 31) :
    ∃ g1 out, write_zlib_chunk g file ⟨w, h, data⟩ = outcome.returned g1 (file ++ out) ∧
      12 ≤ out.length ∧
      (out.drop 4).take 4 = str_IDAT ∧
      out.drop (out.length - 4) =
        big_endian_4 (crc g (str_IDAT ++ chunk_payload out)
          (4 + (chunk_payload out).length)).2 ∧
      out.drop 4 =
        ((write_chunk g [] (create_chunk str_IDAT (chunk_payload out).length
          (chunk_payload out))).2).drop 4 := by
  refine ⟨_, _, write_zlib_chunk_nat g hg file w h data hr, ?_, zlib_chunk_bytes_type _, ?_, ?_⟩
  · rw [zlib_chunk_bytes_length]; omega
  · rw [zlib_chunk_bytes_last_4, chunk_payload_zlib_chunk_bytes]
    have := crc_snd g hg (str_IDAT ++ idat_payload ⟨w, h, data⟩)
    rw [List.length_append] at this
    rw [← this]
    rfl
  · have hw := create_chunk_wf str_IDAT (chunk_payload (zlib_chunk_bytes ⟨w, h, data⟩))
    rw [write_chunk_eq g hg [] _ hw.1 hw.2, chunk_payload_zlib_chunk_bytes,
      zlib_chunk_bytes_drop_4]
    simp [create_chunk, big_endian_4]
    rfl

/-- C5, amended: an instance, a 1x1 raster written in a fresh process to an
empty stream. -/
theorem idat_crc_witness :
    globals_init.valid ∧ 4 * 1 + 1 < 2 ^ 31 ∧
    ∃ g1 out, write_zlib_chunk globals_init [] ⟨1, 1, fun _ => ⟨1, 2, 3, 4⟩⟩ =
        outcome.returned g1 ([] ++ out) ∧
      12 ≤ out.length ∧
      (out.drop 4).take 4 = str_IDAT ∧
      out.drop (out.length - 4) =
        big_endian_4 (crc globals_init (str_IDAT ++ chunk_payload out)
          (4 + (chunk_payload out).length)).2 ∧
      out.drop 4 =
        ((write_chunk globals_init [] (create_chunk str_IDAT (chunk_payload out).length
          (chunk_payload out))).2).drop 4 :=
  ⟨globals_init_valid, by decide,
    idat_crc globals_init globals_init_valid [] 1 1 (fun _ => ⟨1, 2, 3, 4⟩) (by decide)⟩

set_option maxRecDepth 100000 in
/-- C6, counterexample.  For the raster of width 536870912 = 2^29 and height 2
of white pixels, `write_zlib_chunk` aborts on the assertion that the buffer was
allocated, before it has written any byte: no Adler-32 trailer is written.  For
the raster of width 1073741824 = 2^30 and height 1 the row size wraps to 1, and
the call returns having written one stored block holding the filter byte alone;
the four bytes before the CRC are the big-endian `adler32` of that one byte 0,
not of the row's 4 * width + 1 bytes. -/
theorem adler32_trailer_fails_at_width_536870912 :
    write_zlib_chunk globals_init [] ⟨536870912, 2, fun _ => ⟨255, 255, 255, 255⟩⟩ =
      outcome.aborted [] ∧
    write_zlib_chunk globals_init [] ⟨1073741824, 1, fun _ => ⟨0, 0, 0, 0⟩⟩ =
      outcome.returned globals_ready
        ([0, 0, 0, 12] ++ str_IDAT ++ [8, 29] ++ [1, 1, 0, 254, 255, 0] ++
          big_endian_4 (adler32 [0] 1) ++ [119, 43, 214, 169]) := by
  refine ⟨?_, ?_⟩ <;> decide

/-- C6, amended.  Adler-32 trailer: for every raster with width and height at
least 0 whose row size `4 * width + 1` fits in an `int` (is below 2^31),
`write_zlib_chunk` returns, and the four bytes it writes immediately before the
IDAT CRC are the big-endian encoding of `adler32` of the filtered image data
alone (per row, top to bottom, the byte 0 and the row's pixel bytes).  This
covers rasters whose Adler-32 value is at least 2^31, where `adler32_sum`
returns a negative `int`, such as the 4x1 raster of white pixels. -/
theorem adler32_trailer (g : globals) (hg : g.valid) (file : FILE) (w h : Nat)
    (data : Int → pixel) (hr : 4 * w + 1 < 2 ^ 31) :
    (∃ g1 out, write_zlib_chunk g file ⟨w, h, data⟩ = outcome.returned g1 (file ++ out) ∧
      (out.drop (out.length - 8)).take 4 =
        big_endian_4 (adler32 (filtered_data ⟨w, h, data⟩)
          (filtered_data ⟨w, h, data⟩).length)) ∧
    adler32_sum (adler32_update adler32_init
      (filtered_data ⟨4, 1, fun _ => ⟨255, 255, 255, 255⟩⟩) 17) < 0 := by
  refine ⟨⟨_, _, write_zlib_chunk_nat g hg file w h data hr, ?_⟩, by decide⟩
  rw [zlib_chunk_bytes_adler, adler_trailer_eq]

/-- C6, amended: an instance, the 4x1 raster of white pixels, whose Adler-32
value is at least 2^31. -/
theorem adler32_trailer_witness :
    globals_init.valid ∧ 4 * 4 + 1 < 2 ^ 31 ∧
    (∃ g1 out, write_zlib_chunk globals_init [] ⟨4, 1, fun _ => ⟨255, 255, 255, 255⟩⟩ =
        outcome.returned g1 ([] ++ out) ∧
      (out.drop (out.length - 8)).take 4 =
        big_endian_4 (adler32 (filtered_data ⟨4, 1, fun _ => ⟨255, 255, 255, 255⟩⟩)
          (filtered_data ⟨4, 1, fun _ => ⟨255, 255, 255, 255⟩⟩).length)) ∧
    adler32_sum (adler32_update adler32_init
      (filtered_data ⟨4, 1, fun _ => ⟨255, 255, 255, 255⟩⟩) 17) < 0 :=
  ⟨globals_init_valid, by decide,
    adler32_trailer globals_init globals_init_valid [] 4 1 (fun _ => ⟨255, 255, 255, 255⟩)
      (by decide)⟩

/-- C7. IDAT length field: for a raster with at least one row, when
`2 + height * (bytes_per_row + 5 * blocks_per_row) + 4` is less than 2^31, with
`bytes_per_row = 4 * width + 1` and `blocks_per_row` the ceiling of
`bytes_per_row / 65535`, the first four bytes `write_zlib_chunk` writes decode
big-endian to that value; the code's `(bytes_per_row - 1) / 65535 + 1` is that
ceiling; and for a 256x256 raster the value is 263686. -/
theorem idat_length_field (g : globals) (hg : g.valid) (file : FILE) (w h : Nat)
    (data : Int → pixel) (hh : 1 ≤ h)
    (hlt : 2 + h * ((4 * w + 1) + 5 * ceil_div (4 * w + 1) 65535) + 4 < 2 ^ 31) :
    (∃ g1 out, write_zlib_chunk g file ⟨w, h, data⟩ = outcome.returned g1 (file ++ out) ∧
      be_value (out.take 4) =
        2 + h * ((4 * w + 1) + 5 * ceil_div (4 * w + 1) 65535) + 4) ∧
    (4 * w + 1 - 1) / 65535 + 1 = ceil_div (4 * w + 1) 65535 ∧
    (∀ data : Int → pixel, ∃ g1 out,
      write_zlib_chunk g file ⟨256, 256, data⟩ = outcome.returned g1 (file ++ out) ∧
      be_value (out.take 4) = 263686) := by
  have hc := blocks_per_row_eq_ceil w
  have hm : w * 4 = 4 * w := Nat.mul_comm _ _
  rw [hm] at hc
  have hr : 4 * w + 1 < 2 ^ 31 := by
    have h1 : 1 * (4 * w + 1 + 5 * ceil_div (4 * w + 1) 65535) ≤
        h * (4 * w + 1 + 5 * ceil_div (4 * w + 1) 65535) := Nat.mul_le_mul_right _ hh
    omega
  refine ⟨⟨_, _, write_zlib_chunk_nat g hg file w h data hr, ?_⟩, hc, ?_⟩
  · rw [length_field_nat, hc]
    exact Nat.mod_eq_of_lt (lt_trans hlt (by norm_num))
  · intro data
    refine ⟨_, _, write_zlib_chunk_nat g hg file 256 256 data (by norm_num), ?_⟩
    rw [length_field_nat]
    rfl

/-- C7: an instance, a 1x1 raster (length field 16) written in a fresh process. -/
theorem idat_length_field_witness :
    globals_init.valid ∧ 1 ≤ 1 ∧
    2 + 1 * ((4 * 1 + 1) + 5 * ceil_div (4 * 1 + 1) 65535) + 4 < 2 ^ 31 ∧
    (∃ g1 out, write_zlib_chunk globals_init [] ⟨1, 1, fun _ => ⟨1, 2, 3, 4⟩⟩ =
        outcome.returned g1 ([] ++ out) ∧
      be_value (out.take 4) = 2 + 1 * ((4 * 1 + 1) + 5 * ceil_div (4 * 1 + 1) 65535) + 4) ∧
    (4 * 1 + 1 - 1) / 65535 + 1 = ceil_div (4 * 1 + 1) 65535 ∧
    (∀ data : Int → pixel, ∃ g1 out,
      write_zlib_chunk globals_init [] ⟨256, 256, data⟩ = outcome.returned g1 ([] ++ out) ∧
      be_value (out.take 4) = 263686) :=
  ⟨globals_init_valid, le_refl 1, by decide,
    idat_length_field globals_init globals_init_valid [] 1 1 (fun _ => ⟨1, 2, 3, 4⟩)
      (le_refl 1) (by decide)⟩

/-- C8, counterexample.  For the raster of width 1073741823 = 2^30 - 1 and
height 1, `write_zlib_chunk` aborts on the assertion that the buffer was
allocated, before it has written any byte: it emits no stored block, so no
block carries the flag 1. -/
theorem final_block_flag_fails_at_width_1073741823 :
    write_zlib_chunk globals_init [] ⟨1073741823, 1, fun _ => ⟨0, 0, 0, 0⟩⟩ =
      outcome.aborted [] ∧
    ∀ g1 out, write_zlib_chunk globals_init [] ⟨1073741823, 1, fun _ => ⟨0, 0, 0, 0⟩⟩ ≠
      outcome.returned g1 out := by
  have h : write_zlib_chunk globals_init [] ⟨1073741823, 1, fun _ => ⟨0, 0, 0, 0⟩⟩ =
      outcome.aborted [] := by decide
  refine ⟨h, ?_⟩
  intro g1 out h1
  rw [h] at h1
  cases h1

/-- C8, amended.  Final-block flag: for a raster with at least one row whose
row size `4 * width + 1` fits in an `int` (is below 2^31), `write_zlib_chunk`
returns, and reading the stored blocks of the payload it writes yields
`height * blocks_per_row` blocks, row after row, whose flag bytes are 0 on every
block but the last and 1 on the last block (the last block of the last row);
after that block only the four bytes of the Adler-32 trailer remain. -/
theorem final_block_flag (g : globals) (hg : g.valid) (file : FILE) (w h : Nat)
    (data : Int → pixel) (hh : 1 ≤ h) (hr : 4 * w + 1 < 2 ^ 31) :
    ∃ g1 out blocks trailer,
      write_zlib_chunk g file ⟨w, h, data⟩ = outcome.returned g1 (file ++ out) ∧
      zlib_stored_blocks (chunk_payload out) = some (blocks, trailer) ∧
      blocks.length = h * ((4 * w + 1 - 1) / 65535 + 1) ∧
      blocks.map Prod.fst =
        List.replicate (h * ((4 * w + 1 - 1) / 65535 + 1) - 1) 0 ++ [1] ∧
      trailer.length = 4 := by
  have hb := blocks_per_row_nat w h data
  have hh1 : 1 ≤ (⟨w, h, data⟩ : image).height.toNat := by
    simpa only [Int.toNat_ofNat] using hh
  refine ⟨_, _, image_blocks ⟨w, h, data⟩, adler_trailer ⟨w, h, data⟩,
    write_zlib_chunk_nat g hg file w h data hr, ?_, ?_, ?_, adler_trailer_length _⟩
  · rw [chunk_payload_zlib_chunk_bytes, decode_payload _ hh1]
  · rw [image_blocks_length, hb]
    simp only [Int.toNat_ofNat]
  · rw [image_blocks_flags _ hh1, hb]
    simp only [Int.toNat_ofNat]

/-- C8, amended: an instance, a raster of width 1 and height 2 written in a
fresh process: two rows of one block each, with flags 0 and 1. -/
theorem final_block_flag_witness :
    globals_init.valid ∧ 1 ≤ 2 ∧ 4 * 1 + 1 < 2 ^ 31 ∧
    List.replicate (2 * ((4 * 1 + 1 - 1) / 65535 + 1) - 1) 0 ++ [1] = [0, 1] ∧
    ∃ g1 out blocks trailer,
      write_zlib_chunk globals_init [] ⟨1, 2, fun _ => ⟨1, 2, 3, 4⟩⟩ =
        outcome.returned g1 ([] ++ out) ∧
      zlib_stored_blocks (chunk_payload out) = some (blocks, trailer) ∧
      blocks.length = 2 * ((4 * 1 + 1 - 1) / 65535 + 1) ∧
      blocks.map Prod.fst = List.replicate (2 * ((4 * 1 + 1 - 1) / 65535 + 1) - 1) 0 ++ [1] ∧
      trailer.length = 4 :=
  ⟨globals_init_valid, by decide, by decide, by decide,
    final_block_flag globals_init globals_init_valid [] 1 2 (fun _ => ⟨1, 2, 3, 4⟩)
      (by decide) (by decide)⟩

/-- C9. CRC-32 reference vectors: `crc` of the empty byte sequence is 0 and `crc`
of the nine ASCII bytes of "123456789" is 0xCBF43926, both in a fresh process
(table not yet built) and once the table has been built. -/
theorem crc_reference_vectors :
    (crc globals_init [] 0).2 = 0 ∧
    (crc globals_init [49, 50, 51, 52, 53, 54, 55, 56, 57] 9).2 = 0xCBF43926 ∧
    (crc globals_ready [] 0).2 = 0 ∧
    (crc globals_ready [49, 50, 51, 52, 53, 54, 55, 56, 57] 9).2 = 0xCBF43926 := by
  refine ⟨?_, ?_, ?_, ?_⟩ <;> decide

/-- C10. Adler-32 reference vectors: `adler32` of the empty byte sequence is 1
and `adler32` of the nine ASCII bytes of "Wikipedia" is 0x11E60398. -/
theorem adler32_reference_vectors :
    adler32 [] 0 = 1 ∧
    adler32 [87, 105, 107, 105, 112, 101, 100, 105, 97] 9 = 0x11E60398 := by
  refine ⟨?_, ?_⟩ <;> decide

/-! ### Incremental Adler-32 -/

theorem int_to_u32_u32_to_int (v : Nat) (hv : v < 2 ^ 32) : int_to_u32 (u32_to_int v) = v := by
  unfold int_to_u32 u32_to_int
  rw [Nat.mod_eq_of_lt hv]
  split <;> omega

theorem adler32_update_length_append (ad : adler32_data) (xs ys : List Nat) :
    adler32_update ad (xs ++ ys) (xs ++ ys).length =
      adler32_update (adler32_update ad xs xs.length) ys ys.length :=
  (adler32_update_append ad xs ys).symm

theorem adler32_feed_eq (pieces : List (List Nat)) (ad : adler32_data) :
    pieces.foldl (fun ad p => adler32_update ad p p.length) ad =
      adler32_update ad pieces.flatten pieces.flatten.length := by
  induction pieces generalizing ad with
  | nil => simp [adler32_update]
  | cons p ps ih =>
    rw [List.foldl_cons, ih, List.flatten_cons, adler32_update_length_append]

theorem adler32_sum_unsigned (data : List Nat) :
    int_to_u32 (adler32_sum (adler32_update adler32_init data data.length)) =
      adler32 data data.length := by
  unfold adler32_sum
  rw [← adler32_eq_update, int_to_u32_u32_to_int _ (adler32_lt data)]

/-- C11. Adler-32 incremental feeding: `adler32_init`, then `adler32_update`
with `xs`, then `adler32_update` with `ys`, leaves a state whose `adler32_sum`,
read as an unsigned 32-bit value, is `adler32` of `xs ++ ys`; and feeding any
list of pieces, one call each, gives `adler32` of their concatenation. -/
theorem adler32_incremental (xs ys : List Nat) (pieces : List (List Nat)) :
    int_to_u32 (adler32_sum
      (adler32_update (adler32_update adler32_init xs xs.length) ys ys.length)) =
      adler32 (xs ++ ys) (xs ++ ys).length ∧
    int_to_u32 (adler32_sum (adler32_feed pieces)) =
      adler32 pieces.flatten pieces.flatten.length := by
  refine ⟨?_, ?_⟩
  · rw [adler32_update_append, adler32_sum_unsigned]
  · rw [adler32_feed, adler32_feed_eq, adler32_sum_unsigned]

theorem xor_65535 (i : Nat) (hi : i ≤ 65535) : i ^^^ 65535 = 65535 - i := by
  apply Nat.eq_of_testBit_eq
  intro j
  have h1 : (65535 : Nat) = 2 ^ 16 - 1 := by norm_num
  have h2 : 65535 - i = 2 ^ 16 - (i + 1) := by omega
  rw [h2, Nat.testBit_two_pow_sub_succ (by omega : i < 2 ^ 16), Nat.testBit_xor, h1,
    Nat.testBit_two_pow_sub_one]
  by_cases hj : j < 16
  · simp [hj]
  · have : i.testBit j = false := by
      apply Nat.testBit_lt_two_pow
      calc i < 2 ^ 16 := by omega
        _ ≤ 2 ^ j := Nat.pow_le_pow_right (by norm_num) (by omega)
    simp [hj, this]

/-- C12. Stored-block length codec: for `i ≤ 65535` the four bytes of
`int_to_four_chars_zlibchunk(i)` are `b0, b1, b2, b3` with `b0 + 256 * b1 = i`,
`b2 = 255 - b0`, `b3 = 255 - b1`, each a byte, so that `b2 + 256 * b3` is
`65535 - i`, the 16-bit complement of `i`. -/
theorem zlibchunk_length_codec (i : Nat) (hi : i ≤ 65535) :
    ∃ b0 b1 b2 b3, int_to_four_chars_zlibchunk i = [b0, b1, b2, b3] ∧
      b0 < 256 ∧ b1 < 256 ∧ b2 < 256 ∧ b3 < 256 ∧
      b0 + 256 * b1 = i ∧ b2 = 255 - b0 ∧ b3 = 255 - b1 ∧ b2 + 256 * b3 = 65535 - i ∧
      b2 + 256 * b3 = i ^^^ 65535 := by
  refine ⟨i % 256, i / 256 % 256, 255 - i % 256, 255 - i / 256 % 256,
    int_to_four_chars_zlibchunk_eq i, ?_, ?_, ?_, ?_, ?_, rfl, rfl, ?_, ?_⟩
  · omega
  · omega
  · omega
  · omega
  · omega
  · omega
  · rw [xor_65535 i hi]
    omega

/-- C12: an instance, the length 5 of the only block of a 1x1 raster. -/
theorem zlibchunk_length_codec_witness :
    (5 : Nat) ≤ 65535 ∧
    ∃ b0 b1 b2 b3, int_to_four_chars_zlibchunk 5 = [b0, b1, b2, b3] ∧
      b0 < 256 ∧ b1 < 256 ∧ b2 < 256 ∧ b3 < 256 ∧
      b0 + 256 * b1 = 5 ∧ b2 = 255 - b0 ∧ b3 = 255 - b1 ∧ b2 + 256 * b3 = 65535 - 5 ∧
      b2 + 256 * b3 = 5 ^^^ 65535 :=
  ⟨by decide, zlibchunk_length_codec 5 (by decide)⟩

/-- C13. Big-endian codec: the four bytes of `int_to_four_chars(i)` are
`i / 2^24 % 256`, `i / 2^16 % 256`, `i / 2^8 % 256`, `i % 256`, most significant
first, each a byte; read big-endian they give `i` when `i < 2^32`, and `i mod 2^32`
for every `i`. -/
theorem big_endian_codec (i : Nat) :
    (∃ b0 b1 b2 b3, int_to_four_chars i = [b0, b1, b2, b3] ∧
      b0 < 256 ∧ b1 < 256 ∧ b2 < 256 ∧ b3 < 256 ∧
      b0 * 2 ^ 24 + b1 * 2 ^ 16 + b2 * 2 ^ 8 + b3 = i % 2 ^ 32 ∧
      (i < 2 ^ 32 → b0 * 2 ^ 24 + b1 * 2 ^ 16 + b2 * 2 ^ 8 + b3 = i) ∧
      b0 = i / 2 ^ 24 % 256 ∧ b3 = i % 256) ∧
    be_value (int_to_four_chars i) = i % 2 ^ 32 := by
  refine ⟨⟨i / 2 ^ 24 % 256, i / 2 ^ 16 % 256, i / 2 ^ 8 % 256, i % 256,
    int_to_four_chars_eq i, ?_, ?_, ?_, ?_, ?_, ?_, rfl, rfl⟩, ?_⟩
  · omega
  · omega
  · omega
  · omega
  · omega
  · intro h; omega
  · rw [int_to_four_chars_eq, be_value_big_endian_4]

/-- C13: instances, a number below 2^32 and one above it. -/
theorem big_endian_codec_witness :
    int_to_four_chars 0x12345678 = [0x12, 0x34, 0x56, 0x78] ∧
    int_to_four_chars (2 ^ 32 + 0x12345678) = [0x12, 0x34, 0x56, 0x78] ∧
    be_value (int_to_four_chars (2 ^ 32 + 0x12345678)) = (2 ^ 32 + 0x12345678) % 2 ^ 32 :=
  ⟨by decide, by decide, (big_endian_codec (2 ^ 32 + 0x12345678)).2⟩

set_option maxRecDepth 100000 in
/-- C14. End-to-end example: for the raster of width 2 and height 1 with pixels
(255,0,0,255) and (0,255,0,255), `write_PNG_image_to_file` returns having
written the 108 bytes below; they are the signature, the chunk `IHDR` with
payload 0,0,0,2, 0,0,0,1, 8, 6, 0, 0, 0, the chunks `sRGB` and `bKGD`, the
`IDAT` bytes, and `IEND`; the `IDAT` bytes are those `write_zlib_chunk` writes,
and in them the four bytes before the CRC are the big-endian `adler32` of
0,255,0,0,255,0,255,0,255. -/
theorem end_to_end_example :
    write_PNG_image_to_file globals_init []
      ⟨2, 1, fun k => if k = 0 then ⟨255, 0, 0, 255⟩ else ⟨0, 255, 0, 255⟩⟩ =
      outcome.returned globals_ready [137, 80, 78, 71, 13, 10, 26, 10,
        0, 0, 0, 13, 73, 72, 68, 82, 0, 0, 0, 2, 0, 0, 0, 1, 8, 6, 0, 0, 0, 244, 34, 127, 138,
        0, 0, 0, 1, 115, 82, 71, 66, 0, 174, 206, 28, 233,
        0, 0, 0, 6, 98, 75, 71, 68, 0, 255, 0, 255, 0, 255, 160, 189, 167, 147,
        0, 0, 0, 20, 73, 68, 65, 84, 8, 29, 1, 9, 0, 246, 255,
        0, 255, 0, 0, 255, 0, 255, 0, 255, 16, 248, 3, 253, 229, 45, 204, 6,
        0, 0, 0, 0, 73, 69, 78, 68, 174, 66, 96, 130] ∧
    [137, 80, 78, 71, 13, 10, 26, 10,
        0, 0, 0, 13, 73, 72, 68, 82, 0, 0, 0, 2, 0, 0, 0, 1, 8, 6, 0, 0, 0, 244, 34, 127, 138,
        0, 0, 0, 1, 115, 82, 71, 66, 0, 174, 206, 28, 233,
        0, 0, 0, 6, 98, 75, 71, 68, 0, 255, 0, 255, 0, 255, 160, 189, 167, 147,
        0, 0, 0, 20, 73, 68, 65, 84, 8, 29, 1, 9, 0, 246, 255,
        0, 255, 0, 0, 255, 0, 255, 0, 255, 16, 248, 3, 253, 229, 45, 204, 6,
        0, 0, 0, 0, 73, 69, 78, 68, 174, 66, 96, 130] =
      [137, 80, 78, 71, 13, 10, 26, 10] ++
      framed_chunk str_IHDR [0, 0, 0, 2, 0, 0, 0, 1, 8, 6, 0, 0, 0] ++
      framed_chunk str_sRGB [0] ++
      framed_chunk str_bKGD [0, 255, 0, 255, 0, 255] ++
      (big_endian_4 20 ++ str_IDAT ++
        ([8, 29] ++ [1, 9, 0, 246, 255] ++ [0, 255, 0, 0, 255, 0, 255, 0, 255] ++
          big_endian_4 (adler32 [0, 255, 0, 0, 255, 0, 255, 0, 255] 9)) ++
        [229, 45, 204, 6]) ++
      framed_chunk str_IEND [] ∧
    write_zlib_chunk globals_init []
      ⟨2, 1, fun k => if k = 0 then ⟨255, 0, 0, 255⟩ else ⟨0, 255, 0, 255⟩⟩ =
      outcome.returned globals_ready
        (big_endian_4 20 ++ str_IDAT ++
          ([8, 29] ++ [1, 9, 0, 246, 255] ++ [0, 255, 0, 0, 255, 0, 255, 0, 255] ++
            big_endian_4 (adler32 [0, 255, 0, 0, 255, 0, 255, 0, 255] 9)) ++
          [229, 45, 204, 6]) ∧
    ((big_endian_4 20 ++ str_IDAT ++
          ([8, 29] ++ [1, 9, 0, 246, 255] ++ [0, 255, 0, 0, 255, 0, 255, 0, 255] ++
            big_endian_4 (adler32 [0, 255, 0, 0, 255, 0, 255, 0, 255] 9)) ++
          [229, 45, 204, 6]).drop 24).take 4 =
      big_endian_4 (adler32 [0, 255, 0, 0, 255, 0, 255, 0, 255] 9) := by
  refine ⟨?_, ?_, ?_, ?_⟩ <;> decide

/-! ### Small rasters -/

theorem idat_payload_1x1 (data : Int → pixel) :
    idat_payload ⟨1, 1, data⟩ =
      [8, 29] ++ [1, 5, 0, 250, 255] ++
        [0, (data 0).r.val, (data 0).g.val, (data 0).b.val, (data 0).a.val] ++
        big_endian_4 (adler32
          [0, (data 0).r.val, (data 0).g.val, (data 0).b.val, (data 0).a.val] 5) := by
  have t1 : (1 : Int).toNat = 1 := rfl
  have hf : filtered_data ⟨1, 1, data⟩ =
      [0, (data 0).r.val, (data 0).g.val, (data 0).b.val, (data 0).a.val] := by
    simp [filtered_data, scanline, pixel_bytes, pixel_at, pixel_index, List.range_succ]
  have hb : row_buffer ⟨1, 1, data⟩ 0 =
      [0, (data 0).r.val, (data 0).g.val, (data 0).b.val, (data 0).a.val] := by
    rw [row_buffer_eq]
    simp [scanline, pixel_bytes, pixel_at, pixel_index, List.range_succ]
  have hn : blocks_per_row ⟨1, 1, data⟩ = 1 := by
    norm_num [blocks_per_row, sizeof_pixel, MAX_DATA_BYTES_PER_DEFLATE_BLOCK]
  have hr : rows_bytes ⟨1, 1, data⟩ 1 =
      [1, 5, 0, 250, 255] ++
        [0, (data 0).r.val, (data 0).g.val, (data 0).b.val, (data 0).a.val] := by
    simp [rows_bytes, image_row_bytes, hn, hb, row_bytes, row_block, List.range_succ,
      curblock_len, sizeof_pixel, MAX_DATA_BYTES_PER_DEFLATE_BLOCK,
      int_to_four_chars_zlibchunk_eq]
  unfold idat_payload
  rw [adler_trailer_eq, hf]
  have hh : ({ width := 1, height := 1, data := data } : image).height.toNat = 1 := rfl
  rw [hh, hr]
  rfl

/-- C15. 1x1 boundary: for every raster of width 1 and height 1 with pixel
(r, g, b, a), `write_zlib_chunk` returns having written the length field 16,
the tag `IDAT`, the 16 payload bytes 8, 29; 1, 5, 0, 250, 255, 0, r, g, b, a;
then the big-endian `adler32` of 0, r, g, b, a; and the CRC: one row, one
stored block, flagged final. -/
theorem one_by_one_raster (g : globals) (hg : g.valid) (file : FILE) (data : Int → pixel) :
    write_zlib_chunk g file ⟨1, 1, data⟩ = outcome.returned globals_ready
      (file ++ ([0, 0, 0, 16] ++ str_IDAT ++
        ([8, 29] ++ [1, 5, 0, 250, 255] ++
          [0, (data 0).r.val, (data 0).g.val, (data 0).b.val, (data 0).a.val] ++
          big_endian_4 (adler32
            [0, (data 0).r.val, (data 0).g.val, (data 0).b.val, (data 0).a.val] 5)) ++
        big_endian_4 (crc g (str_IDAT ++
          ([8, 29] ++ [1, 5, 0, 250, 255] ++
            [0, (data 0).r.val, (data 0).g.val, (data 0).b.val, (data 0).a.val] ++
            big_endian_4 (adler32
              [0, (data 0).r.val, (data 0).g.val, (data 0).b.val, (data 0).a.val] 5))) 20).2)) ∧
    ([8, 29] ++ [1, 5, 0, 250, 255] ++
        [0, (data 0).r.val, (data 0).g.val, (data 0).b.val, (data 0).a.val] ++
        big_endian_4 (adler32
          [0, (data 0).r.val, (data 0).g.val, (data 0).b.val, (data 0).a.val] 5)).length = 16 ∧
    zlib_stored_blocks ([8, 29] ++ [1, 5, 0, 250, 255] ++
        [0, (data 0).r.val, (data 0).g.val, (data 0).b.val, (data 0).a.val] ++
        big_endian_4 (adler32
          [0, (data 0).r.val, (data 0).g.val, (data 0).b.val, (data 0).a.val] 5)) =
      some ([(1, [0, (data 0).r.val, (data 0).g.val, (data 0).b.val, (data 0).a.val])],
        big_endian_4 (adler32
          [0, (data 0).r.val, (data 0).g.val, (data 0).b.val, (data 0).a.val] 5)) := by
  have hp := idat_payload_1x1 data
  refine ⟨?_, rfl, ?_⟩
  · rw [write_zlib_chunk_bytes g hg file ⟨1, 1, data⟩ (by norm_num) (by norm_num),
      zlib_chunk_bytes, hp]
    have hc := crc_snd g hg (str_IDAT ++
      ([8, 29] ++ [1, 5, 0, 250, 255] ++
        [0, (data 0).r.val, (data 0).g.val, (data 0).b.val, (data 0).a.val] ++
        big_endian_4 (adler32
          [0, (data 0).r.val, (data 0).g.val, (data 0).b.val, (data 0).a.val] 5)))
    have hl : (str_IDAT ++
      ([8, 29] ++ [1, 5, 0, 250, 255] ++
        [0, (data 0).r.val, (data 0).g.val, (data 0).b.val, (data 0).a.val] ++
        big_endian_4 (adler32
          [0, (data 0).r.val, (data 0).g.val, (data 0).b.val, (data 0).a.val] 5))).length
        = 20 := rfl
    rw [hl] at hc
    rw [hc]
    have hn : num_chunk_bytes ⟨1, 1, data⟩ = 16 := by
      have t1 : (1 : Int).toNat = 1 := rfl
      norm_num [num_chunk_bytes, blocks_per_row, sizeof_pixel, DEFLATE_OVERHEAD,
        MAX_DATA_BYTES_PER_DEFLATE_BLOCK, t1]
    rw [hn]
    rfl
  · rfl

set_option maxRecDepth 100000 in
/-- C15: an instance, the pixel (1, 2, 3, 4) written in a fresh process. -/
theorem one_by_one_raster_witness :
    globals_init.valid ∧
    write_zlib_chunk globals_init [] ⟨1, 1, fun _ => ⟨1, 2, 3, 4⟩⟩ =
      outcome.returned globals_ready
        [0, 0, 0, 16, 73, 68, 65, 84, 8, 29, 1, 5, 0, 250, 255, 0, 1, 2, 3, 4,
          0, 25, 0, 11, 103, 65, 102, 89] :=
  ⟨globals_init_valid, by
    rw [(one_by_one_raster globals_init globals_init_valid [] (fun _ => ⟨1, 2, 3, 4⟩)).1]
    decide⟩

set_option maxRecDepth 100000 in
/-- C16, counterexample.  For the raster of width 536870912 = 2^29 and height 2
the first run of `write_PNG_image_to_file`, from the initial globals, does not
return: `write_zlib_chunk` aborts on the assertion that the buffer was
allocated, after the signature and the chunks `IHDR`, `sRGB`, `bKGD` have been
written; there is no second run. -/
theorem encoding_aborts_at_width_536870912 :
    write_PNG_image_to_file globals_init [] ⟨536870912, 2, fun _ => ⟨0, 0, 0, 0⟩⟩ =
      outcome.aborted [137, 80, 78, 71, 13, 10, 26, 10,
        0, 0, 0, 13, 73, 72, 68, 82, 32, 0, 0, 0, 0, 0, 0, 2, 8, 6, 0, 0, 0, 197, 61, 150, 236,
        0, 0, 0, 1, 115, 82, 71, 66, 0, 174, 206, 28, 233,
        0, 0, 0, 6, 98, 75, 71, 68, 0, 255, 0, 255, 0, 255, 160, 189, 167, 147] ∧
    ∀ g1 out, write_PNG_image_to_file globals_init [] ⟨536870912, 2, fun _ => ⟨0, 0, 0, 0⟩⟩ ≠
      outcome.returned g1 out := by
  have h : write_PNG_image_to_file globals_init [] ⟨536870912, 2, fun _ => ⟨0, 0, 0, 0⟩⟩ =
      outcome.aborted [137, 80, 78, 71, 13, 10, 26, 10,
        0, 0, 0, 13, 73, 72, 68, 82, 32, 0, 0, 0, 0, 0, 0, 2, 8, 6, 0, 0, 0, 197, 61, 150, 236,
        0, 0, 0, 1, 115, 82, 71, 66, 0, 174, 206, 28, 233,
        0, 0, 0, 6, 98, 75, 71, 68, 0, 255, 0, 255, 0, 255, 160, 189, 167, 147] := by decide
  refine ⟨h, ?_⟩
  intro g1 out h1
  rw [h] at h1
  cases h1

/-- C16, amended.  Idempotence of encoding: for every raster with width and
height at least 0 whose row size `4 * width + 1` fits in an `int` (is below
2^31), running `write_PNG_image_to_file` from the initial globals (flag 0,
table not built) and then again from the globals the first run left, both runs
return and write the same bytes, and the second run leaves `crc_table` and
`crc_table_computed` as it found them (the table built, the flag set). -/
theorem encoding_idempotent (file1 file2 : FILE) (w h : Nat) (data : Int → pixel)
    (hr : 4 * w + 1 < 2 ^ 31) :
    ∃ g1 out,
      write_PNG_image_to_file globals_init file1 ⟨w, h, data⟩ =
        outcome.returned g1 (file1 ++ out) ∧
      write_PNG_image_to_file g1 file2 ⟨w, h, data⟩ = outcome.returned g1 (file2 ++ out) ∧
      g1.crc_table_computed = true ∧
      g1.crc_table = (make_crc_table globals_init).crc_table :=
  ⟨globals_ready, png_bytes ⟨w, h, data⟩,
    write_PNG_image_to_file_nat _ globals_init_valid _ w h data hr,
    write_PNG_image_to_file_nat _ globals_ready_valid _ w h data hr, rfl, rfl⟩

/-- C16, amended: an instance, a 1x1 raster written twice to an empty stream. -/
theorem encoding_idempotent_witness :
    4 * 1 + 1 < 2 ^ 31 ∧
    ∃ g1 out,
      write_PNG_image_to_file globals_init [] ⟨1, 1, fun _ => ⟨1, 2, 3, 4⟩⟩ =
        outcome.returned g1 ([] ++ out) ∧
      write_PNG_image_to_file g1 [] ⟨1, 1, fun _ => ⟨1, 2, 3, 4⟩⟩ =
        outcome.returned g1 ([] ++ out) ∧
      g1.crc_table_computed = true ∧
      g1.crc_table = (make_crc_table globals_init).crc_table :=
  ⟨by decide, encoding_idempotent [] [] 1 1 (fun _ => ⟨1, 2, 3, 4⟩) (by decide)⟩

/-! ### Rasters with a dimension that is zero or negative -/

theorem idat_payload_height_zero (img : image) (hh : img.height ≤ 0) :
    idat_payload img = [8, 29, 0, 0, 0, 1] := by
  have h0 : img.height.toNat = 0 := Int.toNat_eq_zero.mpr hh
  have h1 : rows_bytes img 0 = [] := rfl
  have h2 : rows_data img 0 = [] := rfl
  unfold idat_payload adler_trailer
  rw [h0, h1, h2]
  decide

theorem filtered_data_zero_dimension (img : image) (hz : img.width = 0 ∨ img.height ≤ 0) :
    filtered_data img = List.replicate img.height.toNat 0 := by
  rcases hz with hw | hh
  · have hs : scanline img = fun _ => [0] := funext fun i => by simp [scanline, hw]
    unfold filtered_data
    rw [hs]
    generalize img.height.toNat = n
    induction n with
    | zero => rfl
    | succ n ih =>
      rw [List.range_succ, List.flatMap_append, ih, List.replicate_succ']
      rfl
  · simp [filtered_data, Int.toNat_eq_zero.mpr hh]

theorem idat_payload_length_zero_dimension (img : image)
    (hz : img.width = 0 ∨ img.height ≤ 0) :
    (idat_payload img).length = 6 + 6 * img.height.toNat := by
  rw [idat_payload_length]
  rcases hz with hw | hh
  · simp [blocks_per_row, carat_after, hw, sizeof_pixel, MAX_DATA_BYTES_PER_DEFLATE_BLOCK]
    ring
  · simp [Int.toNat_eq_zero.mpr hh]

set_option maxRecDepth 100000 in
/-- C17, counterexample.  For the raster of width 1 and height 0
`write_PNG_image_to_file` does not reject: it returns normally, having written
94 bytes (signature, `IHDR`, `sRGB`, `bKGD`, an `IDAT` with no stored block,
`IEND`); the same holds for the raster of width 1 and height -1, and for the
raster of width 0 and height 1, with 100 bytes.  For the raster of width -1 and
height 1 the call does not return, but not before writing: it aborts in
`write_zlib_chunk` after the signature, `IHDR`, `sRGB` and `bKGD`, 64 bytes,
have been written.  In all four cases `image_sanity_test` passes. -/
theorem zero_dimension_not_rejected :
    write_PNG_image_to_file globals_init [] ⟨1, 0, fun _ => ⟨0, 0, 0, 0⟩⟩ =
      outcome.returned globals_ready [137, 80, 78, 71, 13, 10, 26, 10,
        0, 0, 0, 13, 73, 72, 68, 82, 0, 0, 0, 1, 0, 0, 0, 0, 8, 6, 0, 0, 0, 212, 73, 23, 44,
        0, 0, 0, 1, 115, 82, 71, 66, 0, 174, 206, 28, 233,
        0, 0, 0, 6, 98, 75, 71, 68, 0, 255, 0, 255, 0, 255, 160, 189, 167, 147,
        0, 0, 0, 6, 73, 68, 65, 84, 8, 29, 0, 0, 0, 1, 51, 210, 248, 8,
        0, 0, 0, 0, 73, 69, 78, 68, 174, 66, 96, 130] ∧
    write_PNG_image_to_file globals_init [] ⟨0, 1, fun _ => ⟨0, 0, 0, 0⟩⟩ =
      outcome.returned globals_ready [137, 80, 78, 71, 13, 10, 26, 10,
        0, 0, 0, 13, 73, 72, 68, 82, 0, 0, 0, 0, 0, 0, 0, 1, 8, 6, 0, 0, 0, 240, 215, 175, 183,
        0, 0, 0, 1, 115, 82, 71, 66, 0, 174, 206, 28, 233,
        0, 0, 0, 6, 98, 75, 71, 68, 0, 255, 0, 255, 0, 255, 160, 189, 167, 147,
        0, 0, 0, 12, 73, 68, 65, 84, 8, 29, 1, 1, 0, 254, 255, 0, 0, 1, 0, 1, 119, 43, 214, 169,
        0, 0, 0, 0, 73, 69, 78, 68, 174, 66, 96, 130] ∧
    write_PNG_image_to_file globals_init [] ⟨1, -1, fun _ => ⟨0, 0, 0, 0⟩⟩ =
      outcome.returned globals_ready [137, 80, 78, 71, 13, 10, 26, 10,
        0, 0, 0, 13, 73, 72, 68, 82, 0, 0, 0, 1, 255, 255, 255, 255, 8, 6, 0, 0, 0,
        205, 191, 252, 125,
        0, 0, 0, 1, 115, 82, 71, 66, 0, 174, 206, 28, 233,
        0, 0, 0, 6, 98, 75, 71, 68, 0, 255, 0, 255, 0, 255, 160, 189, 167, 147,
        255, 255, 255, 252, 73, 68, 65, 84, 8, 29, 0, 0, 0, 1, 51, 210, 248, 8,
        0, 0, 0, 0, 73, 69, 78, 68, 174, 66, 96, 130] ∧
    write_PNG_image_to_file globals_init [] ⟨-1, 1, fun _ => ⟨0, 0, 0, 0⟩⟩ =
      outcome.aborted [137, 80, 78, 71, 13, 10, 26, 10,
        0, 0, 0, 13, 73, 72, 68, 82, 255, 255, 255, 255, 0, 0, 0, 1, 8, 6, 0, 0, 0,
        0, 92, 22, 202,
        0, 0, 0, 1, 115, 82, 71, 66, 0, 174, 206, 28, 233,
        0, 0, 0, 6, 98, 75, 71, 68, 0, 255, 0, 255, 0, 255, 160, 189, 167, 147] ∧
    image_sanity_test ⟨1, 0, fun _ => ⟨0, 0, 0, 0⟩⟩ = true ∧
    image_sanity_test ⟨0, 1, fun _ => ⟨0, 0, 0, 0⟩⟩ = true ∧
    image_sanity_test ⟨1, -1, fun _ => ⟨0, 0, 0, 0⟩⟩ = true ∧
    image_sanity_test ⟨-1, 1, fun _ => ⟨0, 0, 0, 0⟩⟩ = true := by
  refine ⟨?_, ?_, ?_, ?_, ?_, ?_, ?_, ?_⟩ <;> decide

/-- C17, amended.  For every raster whose width or height is zero or negative
(with width at least -2^29 and `4 * width + 1` below 2^31),
`write_PNG_image_to_file` makes no check of the dimensions before it writes: the
one check there is, `image_sanity_test`, passes, and the signature and the
chunks `IHDR` (with the given dimensions), `sRGB` and `bKGD`, 64 bytes, are
written in every case.  When the width is negative the call then aborts in
`write_zlib_chunk`, on the assertion that the buffer was allocated, with those
64 bytes written.  When the width is not negative the call returns normally
after writing also the bytes of `write_zlib_chunk` and `IEND`; the stream is
`94 + 6 * max(height, 0)` bytes in all; the image data encoded holds no pixel,
only the filter byte 0 of each row; with height zero or negative the `IDAT`
payload is the zlib header and the Adler-32 value 1, with no stored block. -/
theorem no_dimension_check (g : globals) (hg : g.valid) (file : FILE) (img : image)
    (hz : img.width ≤ 0 ∨ img.height ≤ 0)
    (hlo : -2 ^ 29 ≤ img.width) (hhi : 4 * img.width + 1 < 2 ^ 31) :
    image_sanity_test img = true ∧
    ∃ head, head = [137, 80, 78, 71, 13, 10, 26, 10] ++
        framed_chunk str_IHDR
          (big_endian_4 (int_to_ulong img.width) ++ big_endian_4 (int_to_ulong img.height) ++
            [8, 6, 0, 0, 0]) ++
        framed_chunk str_sRGB [0] ++
        framed_chunk str_bKGD [0, 255, 0, 255, 0, 255] ∧
      head.length = 64 ∧
      (img.width < 0 →
        write_zlib_chunk g [] img = outcome.aborted [] ∧
        write_PNG_image_to_file g file img = outcome.aborted (file ++ head)) ∧
      (0 ≤ img.width →
        ∃ z, write_zlib_chunk g [] img = outcome.returned globals_ready z ∧
          write_PNG_image_to_file g file img = outcome.returned globals_ready
            (file ++ (head ++ z ++ framed_chunk str_IEND [])) ∧
          (head ++ z ++ framed_chunk str_IEND []).length = 94 + 6 * img.height.toNat ∧
          filtered_data img = List.replicate img.height.toNat 0 ∧
          (img.height ≤ 0 → chunk_payload z = [8, 29, 0, 0, 0, 1])) := by
  refine ⟨image_sanity_test_true img, png_head img, rfl, png_head_length img, ?_, ?_⟩
  · intro hn
    have hm : 2 ^ 31 ≤ (4 * img.width + 1) % 2 ^ 32 := by omega
    exact ⟨write_zlib_chunk_aborts g [] img hm, write_PNG_image_to_file_aborts g hg file img hm⟩
  · intro hw
    have hz1 : img.width = 0 ∨ img.height ≤ 0 := by omega
    refine ⟨zlib_chunk_bytes img, write_zlib_chunk_bytes_nil g hg img hw hhi, ?_, ?_,
      filtered_data_zero_dimension img hz1, ?_⟩
    · rw [write_PNG_image_to_file_eq g hg file img hw hhi, png_bytes]
    · simp only [List.length_append, png_head_length, framed_chunk, big_endian_4_length,
        zlib_chunk_bytes_length, idat_payload_length_zero_dimension img hz1, str_IEND,
        List.length_cons, List.length_nil]
      omega
    · intro hh
      rw [chunk_payload_zlib_chunk_bytes, idat_payload_height_zero img hh]

/-- C17, amended: an instance, the raster of width 1 and height -1 written in a
fresh process. -/
theorem no_dimension_check_witness :
    globals_init.valid ∧ ((1 : Int) ≤ 0 ∨ (-1 : Int) ≤ 0) ∧
    (-2 ^ 29 : Int) ≤ 1 ∧ (4 * 1 + 1 : Int) < 2 ^ 31 ∧
    (image_sanity_test ⟨1, -1, fun _ => ⟨0, 0, 0, 0⟩⟩ = true ∧
    ∃ head, head = [137, 80, 78, 71, 13, 10, 26, 10] ++
        framed_chunk str_IHDR
          (big_endian_4 (int_to_ulong 1) ++ big_endian_4 (int_to_ulong (-1)) ++
            [8, 6, 0, 0, 0]) ++
        framed_chunk str_sRGB [0] ++
        framed_chunk str_bKGD [0, 255, 0, 255, 0, 255] ∧
      head.length = 64 ∧
      ((1 : Int) < 0 →
        write_zlib_chunk globals_init [] ⟨1, -1, fun _ => ⟨0, 0, 0, 0⟩⟩ = outcome.aborted [] ∧
        write_PNG_image_to_file globals_init [] ⟨1, -1, fun _ => ⟨0, 0, 0, 0⟩⟩ =
          outcome.aborted ([] ++ head)) ∧
      ((0 : Int) ≤ 1 →
        ∃ z, write_zlib_chunk globals_init [] ⟨1, -1, fun _ => ⟨0, 0, 0, 0⟩⟩ =
            outcome.returned globals_ready z ∧
          write_PNG_image_to_file globals_init [] ⟨1, -1, fun _ => ⟨0, 0, 0, 0⟩⟩ =
            outcome.returned globals_ready ([] ++ (head ++ z ++ framed_chunk str_IEND [])) ∧
          (head ++ z ++ framed_chunk str_IEND []).length = 94 + 6 * (-1 : Int).toNat ∧
          filtered_data ⟨1, -1, fun _ => ⟨0, 0, 0, 0⟩⟩ = List.replicate (-1 : Int).toNat 0 ∧
          ((-1 : Int) ≤ 0 → chunk_payload z = [8, 29, 0, 0, 0, 1]))) :=
  ⟨globals_init_valid, Or.inr (by decide), by decide, by decide,
    no_dimension_check globals_init globals_init_valid [] ⟨1, -1, fun _ => ⟨0, 0, 0, 0⟩⟩
      (Or.inr (by decide)) (by decide) (by decide)⟩

/-! ### Table-driven and bit-serial CRC -/

theorem crc_step_eq_bit_step (c : Nat) : crc_step c = bit_step c := by
  unfold crc_step bit_step
  rw [Nat.and_one_is_mod, Nat.shiftRight_eq_div_pow]
  have h : c % 2 = 0 ∨ c % 2 = 1 := by omega
  rcases h with h | h <;> simp [h]

theorem xor_xor_cancel (p x y : Nat) : (p ^^^ x) ^^^ (p ^^^ y) = x ^^^ y := by
  apply Nat.eq_of_testBit_eq
  intro i
  simp only [Nat.testBit_xor]
  cases p.testBit i <;> cases x.testBit i <;> cases y.testBit i <;> rfl

theorem xor_left_swap (p x y : Nat) : p ^^^ (x ^^^ y) = x ^^^ (p ^^^ y) := by
  rw [← Nat.xor_assoc, Nat.xor_comm p x, Nat.xor_assoc]

theorem bit_step_xor (a b : Nat) : bit_step (a ^^^ b) = bit_step a ^^^ bit_step b := by
  have hm : (a ^^^ b) % 2 = (a % 2) ^^^ (b % 2) := by
    rw [← Nat.and_one_is_mod, Nat.and_xor_distrib_right, Nat.and_one_is_mod, Nat.and_one_is_mod]
  unfold bit_step
  rw [hm, Nat.xor_div_two]
  have ha : a % 2 = 0 ∨ a % 2 = 1 := by omega
  have hb : b % 2 = 0 ∨ b % 2 = 1 := by omega
  rcases ha with ha | ha <;> rcases hb with hb | hb
  · simp [ha, hb]
  · simp [ha, hb]
    exact xor_left_swap _ _ _
  · simp [ha, hb]
    exact (Nat.xor_assoc _ _ _).symm
  · simp [ha, hb]
    exact (xor_xor_cancel _ _ _).symm

/-- Eight bit-serial steps. -/
theorem bit_step8_xor (a b : Nat) :
    bit_step (bit_step (bit_step (bit_step (bit_step (bit_step (bit_step (bit_step
      (a ^^^ b)))))))) =
    bit_step (bit_step (bit_step (bit_step (bit_step (bit_step (bit_step (bit_step a)))))))
      ^^^
    bit_step (bit_step (bit_step (bit_step (bit_step (bit_step (bit_step (bit_step b))))))) := by
  simp only [bit_step_xor]

theorem bit_step_even (m : Nat) : bit_step (2 * m) = m := by
  unfold bit_step
  rw [if_neg (by omega)]
  omega

theorem bit_step8_high (h : Nat) :
    bit_step (bit_step (bit_step (bit_step (bit_step (bit_step (bit_step (bit_step
      (256 * h)))))))) = h := by
  have e : 256 * h = 2 * (2 * (2 * (2 * (2 * (2 * (2 * (2 * h))))))) := by ring
  rw [e]
  simp only [bit_step_even]

theorem split_low_high (x : Nat) : x = (x &&& 0xff) ^^^ (256 * (x >>> 8)) := by
  apply Nat.eq_of_testBit_eq
  intro i
  have h1 : (0xff : Nat) = 2 ^ 8 - 1 := by norm_num
  have h2 : 256 * (x >>> 8) = (x >>> 8) <<< 8 := by rw [Nat.shiftLeft_eq]; ring
  rw [h2, Nat.testBit_xor, Nat.testBit_and, h1, Nat.testBit_two_pow_sub_one,
    Nat.testBit_shiftLeft, Nat.testBit_shiftRight]
  by_cases hi : i < 8
  · have : ¬ i ≥ 8 := by omega
    simp [hi, this]
  · have h3 : i ≥ 8 := by omega
    have h4 : 8 + (i - 8) = i := by omega
    simp [hi, h3, h4]

theorem crc_table_entry_eq (n : Nat) :
    crc_table_entry n =
      bit_step (bit_step (bit_step (bit_step (bit_step (bit_step (bit_step (bit_step n))))))) := by
  simp only [crc_table_entry, List.range_succ, List.range_zero, List.nil_append,
    List.cons_append, List.foldl_cons, List.foldl_nil, crc_step_eq_bit_step]

theorem table_step_eq (x : Nat) :
    crc_table_entry (x &&& 0xff) ^^^ (x >>> 8) =
      bit_step (bit_step (bit_step (bit_step (bit_step (bit_step (bit_step (bit_step x))))))) := by
  conv_rhs => rw [split_low_high x]
  rw [bit_step8_xor, bit_step8_high, crc_table_entry_eq]

theorem xor_byte_shiftRight (c b : Nat) (hb : b < 256) : (c ^^^ b) >>> 8 = c >>> 8 := by
  rw [Nat.shiftRight_eq_div_pow, Nat.shiftRight_eq_div_pow]
  have e : ∀ x : Nat, x / 2 ^ 8 = x / 2 / 2 / 2 / 2 / 2 / 2 / 2 / 2 := fun x => by omega
  rw [e, e]
  simp only [Nat.xor_div_two]
  have : b / 2 / 2 / 2 / 2 / 2 / 2 / 2 / 2 = 0 := by omega
  rw [this, Nat.xor_zero]

theorem crc_fold_eq_bitwise (c : Nat) (buf : List Nat) (hb : ∀ b ∈ buf, b < 256) :
    crc_fold c buf = crc_bitwise c buf := by
  induction buf generalizing c with
  | nil => rfl
  | cons b bs ih =>
    have h1 : crc_fold c (b :: bs) =
        crc_fold (crc_table_entry ((c ^^^ b) &&& 0xff) ^^^ (c >>> 8)) bs := by
      simp [crc_fold]
    have h2 : crc_bitwise c (b :: bs) =
        crc_bitwise (bit_step (bit_step (bit_step (bit_step (bit_step (bit_step (bit_step
          (bit_step (c ^^^ b))))))))) bs := by
      simp [crc_bitwise]
    rw [h1, h2, ih _ (fun x hx => hb x (List.mem_cons_of_mem _ hx)),
      ← table_step_eq, xor_byte_shiftRight c b (hb b (List.mem_cons_self _ _))]

/-- C18. Table-driven CRC equals the bit-serial definition: `make_crc_table`
sets the flag and stores in `crc_table[n]`, for every `n` in 0..255, the result
of 8 bit-serial steps starting from `n`; and for every state `c` and every
sequence `buf` of bytes, `update_crc(c, buf)` is the bit-serial reference
`crc_bitwise`, which for each byte xors it into the state and applies the step
8 times. -/
theorem crc_table_is_bit_serial (g : globals) (hg : g.valid) (c : Nat) (buf : List Nat)
    (hb : ∀ b ∈ buf, b < 256) :
    (make_crc_table g).crc_table_computed = true ∧
    (make_crc_table g).crc_table.length = 256 ∧
    (∀ n, n < 256 → (make_crc_table g).crc_table.getD n 0 =
      bit_step (bit_step (bit_step (bit_step (bit_step (bit_step (bit_step (bit_step n)))))))) ∧
    (update_crc g c buf buf.length).2 = crc_bitwise c buf := by
  refine ⟨rfl, by simp [make_crc_table], ?_, ?_⟩
  · intro n hn
    simp only [make_crc_table]
    rw [table_getD _ _ _ hn, crc_table_entry_eq]
  · rw [update_crc_of_valid g hg, List.take_length]
    exact crc_fold_eq_bitwise c buf hb

/-- C18: an instance, the nine bytes of "123456789" from the all-ones state in a
fresh process. -/
theorem crc_table_is_bit_serial_witness :
    globals_init.valid ∧
    (∀ b ∈ [49, 50, 51, 52, 53, 54, 55, 56, 57], b < 256) ∧
    ((make_crc_table globals_init).crc_table_computed = true ∧
    (make_crc_table globals_init).crc_table.length = 256 ∧
    (∀ n, n < 256 → (make_crc_table globals_init).crc_table.getD n 0 =
      bit_step (bit_step (bit_step (bit_step (bit_step (bit_step (bit_step (bit_step n)))))))) ∧
    (update_crc globals_init 0xffffffff [49, 50, 51, 52, 53, 54, 55, 56, 57]
      ([49, 50, 51, 52, 53, 54, 55, 56, 57] : List Nat).length).2 =
      crc_bitwise 0xffffffff [49, 50, 51, 52, 53, 54, 55, 56, 57]) :=
  ⟨globals_init_valid, by decide,
    crc_table_is_bit_serial globals_init globals_init_valid 0xffffffff
      [49, 50, 51, 52, 53, 54, 55, 56, 57] (by decide)⟩

/-! ### Framing of the stored blocks -/

theorem image_blocks_mem (img : image) (b : Nat × List Nat) (hb : b ∈ image_blocks img) :
    (b.1 = 0 ∨ b.1 = 1) ∧ b.2.length ≤ 65535 := by
  unfold image_blocks at hb
  rw [List.mem_flatMap] at hb
  obtain ⟨i, _, hb⟩ := hb
  unfold image_row_blocks at hb
  rw [List.mem_map] at hb
  obtain ⟨j, _, rfl⟩ := hb
  refine ⟨?_, block_data_length_le _ _ _ _⟩
  simp only
  split
  · exact Or.inr rfl
  · exact Or.inl rfl

theorem image_blocks_eq_flatten (img : image) :
    image_blocks img =
      ((List.range img.height.toNat).map (image_row_blocks img)).flatten := by
  simp only [image_blocks, List.flatMap]

theorem idat_payload_eq_blocks (img : image) :
    idat_payload img =
      [8, 29] ++ (image_blocks img).flatMap encode_block ++ adler_trailer img := by
  rw [idat_payload, rows_bytes_eq]

/-- C19. Stored-block sequence is well framed: for every raster with width and
height at least 0 whose row size `4 * width + 1` is within `int` range (below
2^31), `write_zlib_chunk` returns and the payload it writes is the zlib header,
then the stored blocks row after row, then four trailer bytes; each row
contributes `(4 * width) / 65535 + 1` blocks; every block is a flag byte 0 or 1,
a length `L ≤ 65535` in two little-endian bytes that lose nothing of it, the two
complement bytes `255 -` each length byte, and exactly `L` data bytes, right up
to the next block or the trailer; and when there is at least one row, reading
the payload block by block finds exactly these blocks and leaves the trailer. -/
theorem stored_blocks_well_framed (g : globals) (hg : g.valid) (file : FILE) (w h : Nat)
    (data : Int → pixel) (hr : 4 * w + 1 < 2 ^ 31) :
    ∃ (g1 : globals) (out : List Nat) (rows : List (List (Nat × List Nat)))
      (trailer : List Nat),
      write_zlib_chunk g file ⟨w, h, data⟩ = outcome.returned g1 (file ++ out) ∧
      chunk_payload out = [8, 29] ++ rows.flatten.flatMap encode_block ++ trailer ∧
      trailer.length = 4 ∧
      rows.length = h ∧
      (∀ r ∈ rows, r.length = (4 * w) / 65535 + 1) ∧
      (∀ b ∈ rows.flatten,
        (b.1 = 0 ∨ b.1 = 1) ∧ b.2.length ≤ 65535 ∧
        encode_block b =
          [b.1, b.2.length % 256, b.2.length / 256, 255 - b.2.length % 256,
            255 - b.2.length / 256] ++ b.2 ∧
        b.2.length % 256 + 256 * (b.2.length / 256) = b.2.length ∧
        b.2.length / 256 < 256) ∧
      (1 ≤ h → zlib_stored_blocks (chunk_payload out) = some (rows.flatten, trailer)) := by
  refine ⟨globals_ready, zlib_chunk_bytes ⟨w, h, data⟩,
    (List.range (⟨w, h, data⟩ : image).height.toNat).map (image_row_blocks ⟨w, h, data⟩),
    adler_trailer ⟨w, h, data⟩, write_zlib_chunk_nat g hg file w h data hr, ?_,
    adler_trailer_length _, by simp, ?_, ?_, ?_⟩
  · rw [chunk_payload_zlib_chunk_bytes, ← image_blocks_eq_flatten, idat_payload_eq_blocks]
  · intro r hr
    rw [List.mem_map] at hr
    obtain ⟨i, _, rfl⟩ := hr
    rw [image_row_blocks_length, blocks_per_row_nat, Nat.add_sub_cancel]
  · rw [← image_blocks_eq_flatten]
    intro b hb
    obtain ⟨hf, hl⟩ := image_blocks_mem _ b hb
    have h1 : b.2.length / 256 % 256 = b.2.length / 256 := by omega
    refine ⟨hf, hl, ?_, by omega, by omega⟩
    simp only [encode_block, int_to_four_chars_zlibchunk_eq, h1, List.cons_append,
      List.nil_append]
  · intro hh
    have hh1 : 1 ≤ (⟨w, h, data⟩ : image).height.toNat := by
      simpa only [Int.toNat_ofNat] using hh
    rw [chunk_payload_zlib_chunk_bytes, ← image_blocks_eq_flatten, decode_payload _ hh1]

/-- C19: an instance, a 1x1 raster written in a fresh process. -/
theorem stored_blocks_well_framed_witness :
    globals_init.valid ∧ 4 * 1 + 1 < 2 ^ 31 ∧
    ∃ (g1 : globals) (out : List Nat) (rows : List (List (Nat × List Nat)))
      (trailer : List Nat), write_zlib_chunk globals_init [] ⟨1, 1, fun _ => ⟨1, 2, 3, 4⟩⟩ =
        outcome.returned g1 ([] ++ out) ∧
      chunk_payload out = [8, 29] ++ rows.flatten.flatMap encode_block ++ trailer ∧
      trailer.length = 4 ∧
      rows.length = 1 ∧
      (∀ r ∈ rows, r.length = (4 * 1) / 65535 + 1) ∧
      (∀ b ∈ rows.flatten,
        (b.1 = 0 ∨ b.1 = 1) ∧ b.2.length ≤ 65535 ∧
        encode_block b =
          [b.1, b.2.length % 256, b.2.length / 256, 255 - b.2.length % 256,
            255 - b.2.length / 256] ++ b.2 ∧
        b.2.length % 256 + 256 * (b.2.length / 256) = b.2.length ∧
        b.2.length / 256 < 256) ∧
      (1 ≤ 1 → zlib_stored_blocks (chunk_payload out) = some (rows.flatten, trailer)) :=
  ⟨globals_init_valid, by decide,
    stored_blocks_well_framed globals_init globals_init_valid [] 1 1 (fun _ => ⟨1, 2, 3, 4⟩)
      (by decide)⟩

/-! ### The Adler-32 state -/

theorem adler32_update_b_lt (ad : adler32_data) (data : List Nat) (len : Nat)
    (h : ad.b < 65521) : (adler32_update ad data len).b < 65521 := by
  unfold adler32_update
  generalize data.take len = xs
  induction xs generalizing ad with
  | nil => simpa using h
  | cons d ds ih =>
    rw [List.foldl_cons]
    apply ih
    exact Nat.mod_lt _ (by decide)

theorem adler32_feed_lt (pieces : List (List Nat)) :
    (adler32_feed pieces).a < 65521 ∧ (adler32_feed pieces).b < 65521 := by
  rw [adler32_feed, adler32_feed_eq]
  exact ⟨adler32_update_a_lt _ _ _ (by decide), adler32_update_b_lt _ _ _ (by decide)⟩

theorem adler_pack_eq (a b : Nat) (ha : a < 65521) (hb : b < 65521) :
    u32 (b <<< 16) ||| a = b * 65536 + a := by
  have h1 : b <<< 16 = 2 ^ 16 * b := by rw [Nat.shiftLeft_eq]; ring
  have h2 : u32 (b <<< 16) = 2 ^ 16 * b := by
    rw [h1]; exact u32_of_lt _ (by omega)
  rw [h2, ← Nat.mul_add_lt_is_or (by omega : a < 2 ^ 16)]
  ring

/-- C20. Adler-32 state invariant: after `adler32_init` and any sequence of
`adler32_update` calls the state has `a < 65521` and `b < 65521`; hence for
every next byte `d` the sums `a + d` and `b + a'` (with `a'` the new `a`) stay
below 2^32, so the `uint32_t` arithmetic does not wrap, and `(b << 16) | a` is
`b * 65536 + a`, below 2^32. -/
theorem adler32_state_invariant (pieces : List (List Nat)) :
    (adler32_feed pieces).a < 65521 ∧ (adler32_feed pieces).b < 65521 ∧
    (∀ d, d < 256 →
      (adler32_feed pieces).a + d < 2 ^ 32 ∧
      u32 ((adler32_feed pieces).a + d) = (adler32_feed pieces).a + d ∧
      (adler32_feed pieces).b + ((adler32_feed pieces).a + d) % MOD_ADLER < 2 ^ 32 ∧
      u32 ((adler32_feed pieces).b + u32 ((adler32_feed pieces).a + d) % MOD_ADLER) =
        (adler32_feed pieces).b + ((adler32_feed pieces).a + d) % MOD_ADLER) ∧
    u32 ((adler32_feed pieces).b <<< 16) ||| (adler32_feed pieces).a =
      (adler32_feed pieces).b * 65536 + (adler32_feed pieces).a ∧
    (adler32_feed pieces).b * 65536 + (adler32_feed pieces).a < 2 ^ 32 := by
  obtain ⟨ha, hb⟩ := adler32_feed_lt pieces
  refine ⟨ha, hb, ?_, adler_pack_eq _ _ ha hb, by omega⟩
  intro d hd
  have h1 : (adler32_feed pieces).a + d < 2 ^ 32 := by omega
  have h2 : ((adler32_feed pieces).a + d) % MOD_ADLER < 65521 := Nat.mod_lt _ (by decide)
  have h3 : (adler32_feed pieces).b + ((adler32_feed pieces).a + d) % MOD_ADLER < 2 ^ 32 := by
    omega
  refine ⟨h1, u32_of_lt _ h1, h3, ?_⟩
  rw [u32_of_lt _ h1, u32_of_lt _ h3]

end Lgpng
